import Mathlib

/-!
# QUnQLite: a Qt access layer over the UnQLite key/value engine

Shallow embedding of `qunqlite.h`, `qunqlite_p.h`, `qunqlite.cpp`, `qunqlitecursor.h`
and `qunqlitecursor.cpp`.

* A `QByteArray`, and every C buffer handed to the engine, is a list of bytes.
* A `QString` is a well-formed sequence of Unicode scalar values; `QString::size()` counts
  UTF-16 code units and `QString::toUtf8()` is the UTF-8 encoding.
* The engine (`unqlite_*`) is not part of the wrapper sources.  The wrapper functions are
  embedded over an arbitrary `Engine σ`: one field per engine entry point the wrapper calls,
  acting on the engine state `σ` that lives behind the `unqlite *` pointer.  The numeric
  constants of the engine header are a parameter `EngineConstants`.
* The object state of a `QUnQLite` handle is `QUnQLitePrivate`: the last result code and
  the engine state behind `db`.  A cursor object holds the engine cursor it owns; its
  `setResultCode` and `isSuccess` forward to the handle it was created from.
* Which engine calls an operation issues is read off `traced E`, the engine `E` with a log
  of its calls; sequences of operations are run by `runOps` over the operations as data.
-/

namespace QUnQLite

/-- Bytes of a `QByteArray` or of a C buffer. -/
abbrev Bytes := List Nat

/-- A well-formed `QString`, as its sequence of Unicode scalar values. -/
abbrev QString := List Char

/-- Number of UTF-16 code units of one scalar value. -/
def utf16Units (ch : Char) : Nat :=
  if ch.toNat < 0x10000 then 1 else 2

/-- UTF-8 encoding of one scalar value. -/
def utf8Bytes (ch : Char) : Bytes :=
  let n := ch.toNat
  if n < 0x80 then [n]
  else if n < 0x800 then [0xC0 + n / 64, 0x80 + n % 64]
  else if n < 0x10000 then [0xE0 + n / 4096, 0x80 + (n / 64) % 64, 0x80 + n % 64]
  else [0xF0 + n / 262144, 0x80 + (n / 4096) % 64, 0x80 + (n / 64) % 64, 0x80 + n % 64]

/-- The method `QString::size()`: the number of UTF-16 code units. -/
def size : QString → Int
  | [] => 0
  | ch :: rest => (utf16Units ch : Int) + size rest

/-- The method `QString::toUtf8()`: the UTF-8 encoding, as handed out by `constData()`. -/
def toUtf8 : QString → Bytes
  | [] => []
  | ch :: rest => utf8Bytes ch ++ toUtf8 rest

/-- Numeric constants of the engine header `unqlite.h`, which the wrapper's enumerations
are defined from.  The header is not part of the wrapper sources, so the values are a
parameter. -/
structure EngineConstants where
  UNQLITE_OK : Int
  UNQLITE_NOMEM : Int
  UNQLITE_ABORT : Int
  UNQLITE_IOERR : Int
  UNQLITE_CORRUPT : Int
  UNQLITE_LOCKED : Int
  UNQLITE_BUSY : Int
  UNQLITE_DONE : Int
  UNQLITE_PERM : Int
  UNQLITE_NOTIMPLEMENTED : Int
  UNQLITE_NOTFOUND : Int
  UNQLITE_NOOP : Int
  UNQLITE_INVALID : Int
  UNQLITE_EOF : Int
  UNQLITE_UNKNOWN : Int
  UNQLITE_LIMIT : Int
  UNQLITE_EXISTS : Int
  UNQLITE_EMPTY : Int
  UNQLITE_COMPILE_ERR : Int
  UNQLITE_VM_ERR : Int
  UNQLITE_FULL : Int
  UNQLITE_CANTOPEN : Int
  UNQLITE_READ_ONLY : Int
  UNQLITE_LOCKERR : Int
  UNQLITE_OPEN_CREATE : Nat
  UNQLITE_OPEN_READWRITE : Nat
  UNQLITE_OPEN_READONLY : Nat
  UNQLITE_OPEN_MMAP : Nat
  UNQLITE_CURSOR_MATCH_EXACT : Int
  UNQLITE_CURSOR_MATCH_LE : Int
  UNQLITE_CURSOR_MATCH_GE : Int

/-- The enumeration `QUnQLite::OpenMode`. -/
inductive OpenMode where
  | Create
  | ReadWrite
  | ReadOnly
  | ReadOnlyWithMMap
  deriving DecidableEq, Repr

/-- Numeric value of an `OpenMode` member, as its enumerator is initialised in `qunqlite.h`. -/
def OpenMode.value (c : EngineConstants) : OpenMode → Nat
  | .Create => c.UNQLITE_OPEN_CREATE
  | .ReadWrite => c.UNQLITE_OPEN_READWRITE
  | .ReadOnly => c.UNQLITE_OPEN_READONLY
  | .ReadOnlyWithMMap => c.UNQLITE_OPEN_READONLY ||| c.UNQLITE_OPEN_MMAP

/-- The enumeration `QUnQLite::ResultCode`. -/
inductive ResultCode where
  | Ok
  | NoMemory
  | Abort
  | IoError
  | CorruptPointer
  | Locked
  | Busy
  | Done
  | PermissionError
  | NotImplemented
  | NotFound
  | NoSuchFunction
  | Invalid
  | EndOfInput
  | UnknownError
  | Limit
  | Exists
  | Empty
  | CompileError
  | VMError
  | Full
  | CannotOpen
  | IsReadOnly
  | LockingError
  deriving DecidableEq, Repr

/-- Numeric value of a `ResultCode` member, as its enumerator is initialised in `qunqlite.h`. -/
def ResultCode.value (c : EngineConstants) : ResultCode → Int
  | .Ok => c.UNQLITE_OK
  | .NoMemory => c.UNQLITE_NOMEM
  | .Abort => c.UNQLITE_ABORT
  | .IoError => c.UNQLITE_IOERR
  | .CorruptPointer => c.UNQLITE_CORRUPT
  | .Locked => c.UNQLITE_LOCKED
  | .Busy => c.UNQLITE_BUSY
  | .Done => c.UNQLITE_DONE
  | .PermissionError => c.UNQLITE_PERM
  | .NotImplemented => c.UNQLITE_NOTIMPLEMENTED
  | .NotFound => c.UNQLITE_NOTFOUND
  | .NoSuchFunction => c.UNQLITE_NOOP
  | .Invalid => c.UNQLITE_INVALID
  | .EndOfInput => c.UNQLITE_EOF
  | .UnknownError => c.UNQLITE_UNKNOWN
  | .Limit => c.UNQLITE_LIMIT
  | .Exists => c.UNQLITE_EXISTS
  | .Empty => c.UNQLITE_EMPTY
  | .CompileError => c.UNQLITE_COMPILE_ERR
  | .VMError => c.UNQLITE_VM_ERR
  | .Full => c.UNQLITE_FULL
  | .CannotOpen => c.UNQLITE_CANTOPEN
  | .IsReadOnly => c.UNQLITE_READ_ONLY
  | .LockingError => c.UNQLITE_LOCKERR

/-- All members of `ResultCode`, in declaration order. -/
def ResultCode.all : List ResultCode :=
  [.Ok, .NoMemory, .Abort, .IoError, .CorruptPointer, .Locked, .Busy, .Done,
   .PermissionError, .NotImplemented, .NotFound, .NoSuchFunction, .Invalid, .EndOfInput,
   .UnknownError, .Limit, .Exists, .Empty, .CompileError, .VMError, .Full, .CannotOpen,
   .IsReadOnly, .LockingError]

/-- The status constants of the engine header, in the order `ResultCode` refers to them. -/
def EngineConstants.statusCodes (c : EngineConstants) : List Int :=
  [c.UNQLITE_OK, c.UNQLITE_NOMEM, c.UNQLITE_ABORT, c.UNQLITE_IOERR, c.UNQLITE_CORRUPT,
   c.UNQLITE_LOCKED, c.UNQLITE_BUSY, c.UNQLITE_DONE, c.UNQLITE_PERM,
   c.UNQLITE_NOTIMPLEMENTED, c.UNQLITE_NOTFOUND, c.UNQLITE_NOOP, c.UNQLITE_INVALID,
   c.UNQLITE_EOF, c.UNQLITE_UNKNOWN, c.UNQLITE_LIMIT, c.UNQLITE_EXISTS, c.UNQLITE_EMPTY,
   c.UNQLITE_COMPILE_ERR, c.UNQLITE_VM_ERR, c.UNQLITE_FULL, c.UNQLITE_CANTOPEN,
   c.UNQLITE_READ_ONLY, c.UNQLITE_LOCKERR]

/-- What one engine read call (`unqlite_kv_fetch`, `unqlite_kv_cursor_key`,
`unqlite_kv_cursor_data`) leaves behind: its status, the value left in the length
out-parameter, and the bytes it copied to the start of the output buffer (none when the
buffer is NULL). -/
structure ReadResult where
  rc : Int
  length : Int
  written : Bytes
  deriving DecidableEq, Repr

/-- The engine entry points called by the wrapper, over the engine state `σ` behind the
`unqlite *` pointer.  Each returns its integer status and the next engine state.  A buffer
argument is the buffer's bytes followed by the length argument given with it.  The output
buffer of a read call is `none` for NULL and `some n` for a buffer with `n` in the length
in/out parameter.  An engine cursor is named by a natural number.  The validity query
`unqlite_kv_cursor_valid_entry` only answers: it leaves the engine state as it is. -/
structure Engine (σ : Type) where
  unqlite_open : σ → Bytes → Nat → Int × σ
  unqlite_close : σ → Int × σ
  unqlite_kv_append : σ → Bytes → Int → Bytes → Int → Int × σ
  unqlite_kv_store : σ → Bytes → Int → Bytes → Int → Int × σ
  unqlite_kv_fetch : σ → Bytes → Int → Option Int → ReadResult × σ
  unqlite_kv_delete : σ → Bytes → Int → Int × σ
  unqlite_begin : σ → Int × σ
  unqlite_commit : σ → Int × σ
  unqlite_rollback : σ → Int × σ
  unqlite_kv_cursor_init : σ → (Int × Nat) × σ
  unqlite_kv_cursor_release : σ → Nat → Int × σ
  unqlite_kv_cursor_reset : σ → Nat → Int × σ
  unqlite_kv_cursor_seek : σ → Nat → Bytes → Int → Int → Int × σ
  unqlite_kv_cursor_first_entry : σ → Nat → Int × σ
  unqlite_kv_cursor_last_entry : σ → Nat → Int × σ
  unqlite_kv_cursor_next_entry : σ → Nat → Int × σ
  unqlite_kv_cursor_prev_entry : σ → Nat → Int × σ
  unqlite_kv_cursor_key : σ → Nat → Option Int → ReadResult × σ
  unqlite_kv_cursor_data : σ → Nat → Option Int → ReadResult × σ
  unqlite_kv_cursor_valid_entry : σ → Nat → Int

/-- The class `QUnQLitePrivate`: the state of a handle.  `resultCode` holds the integer
value of the `ResultCode` (a `static_cast` keeps the value); `db` is the engine state
behind the `unqlite *` pointer. -/
structure QUnQLitePrivate (σ : Type) where
  resultCode : Int
  db : σ

variable {σ : Type}

/-- `QUnQLitePrivate::setResultCode`. -/
def setResultCode (d : QUnQLitePrivate σ) (rc : Int) : QUnQLitePrivate σ :=
  { d with resultCode := rc }

/-- `QUnQLitePrivate::isSuccess`. -/
def isSuccess (c : EngineConstants) (d : QUnQLitePrivate σ) : Bool :=
  d.resultCode == ResultCode.Ok.value c

/-- `QUnQLite::lastErrorCode`. -/
def lastErrorCode (d : QUnQLitePrivate σ) : Int :=
  d.resultCode

/-- The common shape of the boolean operations: run one engine call on `d->db`, hand its
status to `setResultCode`, return `isSuccess`. -/
def callEngine (c : EngineConstants) (d : QUnQLitePrivate σ) (r : Int × σ) :
    Bool × QUnQLitePrivate σ :=
  let d1 := setResultCode { d with db := r.2 } r.1
  (isSuccess c d1, d1)

/-- `QUnQLite::open`. -/
def openDb (E : Engine σ) (c : EngineConstants) (d : QUnQLitePrivate σ) (name : QString)
    (mode : OpenMode) : Bool × QUnQLitePrivate σ :=
  callEngine c d (E.unqlite_open d.db (toUtf8 name) (mode.value c))

/-- `QUnQLite::close`. -/
def close (E : Engine σ) (c : EngineConstants) (d : QUnQLitePrivate σ) :
    Bool × QUnQLitePrivate σ :=
  callEngine c d (E.unqlite_close d.db)

/-- `QUnQLite::append`. -/
def append (E : Engine σ) (c : EngineConstants) (d : QUnQLitePrivate σ)
    (key value : QString) : Bool × QUnQLitePrivate σ :=
  callEngine c d (E.unqlite_kv_append d.db (toUtf8 key) (size key) (toUtf8 value) (size value))

/-- `QUnQLite::store`. -/
def store (E : Engine σ) (c : EngineConstants) (d : QUnQLitePrivate σ)
    (key value : QString) : Bool × QUnQLitePrivate σ :=
  callEngine c d (E.unqlite_kv_store d.db (toUtf8 key) (size key) (toUtf8 value) (size value))

/-- The buffer `QByteArray record(length, 0)` after the engine has copied `written` to its
start: the array keeps its size. -/
def filledRecord (length : Int) (written : Bytes) : Bytes :=
  written.take length.toNat ++ List.replicate (length.toNat - written.length) 0

/-- `QUnQLite::fetch`. -/
def fetch (E : Engine σ) (c : EngineConstants) (d : QUnQLitePrivate σ) (key : QString) :
    Bytes × QUnQLitePrivate σ :=
  let r1 := E.unqlite_kv_fetch d.db (toUtf8 key) (size key) none
  let d1 := setResultCode { d with db := r1.2 } r1.1.rc
  if isSuccess c d1 then
    let r2 := E.unqlite_kv_fetch d1.db (toUtf8 key) (size key) (some r1.1.length)
    (filledRecord r1.1.length r2.1.written, setResultCode { d1 with db := r2.2 } r2.1.rc)
  else
    ([], d1)

/-- `QUnQLite::remove`. -/
def remove (E : Engine σ) (c : EngineConstants) (d : QUnQLitePrivate σ) (key : QString) :
    Bool × QUnQLitePrivate σ :=
  callEngine c d (E.unqlite_kv_delete d.db (toUtf8 key) (size key))

/-- `QUnQLite::begin`. -/
def begin (E : Engine σ) (c : EngineConstants) (d : QUnQLitePrivate σ) :
    Bool × QUnQLitePrivate σ :=
  callEngine c d (E.unqlite_begin d.db)

/-- `QUnQLite::commit`. -/
def commit (E : Engine σ) (c : EngineConstants) (d : QUnQLitePrivate σ) :
    Bool × QUnQLitePrivate σ :=
  callEngine c d (E.unqlite_commit d.db)

/-- `QUnQLite::rollback`. -/
def rollback (E : Engine σ) (c : EngineConstants) (d : QUnQLitePrivate σ) :
    Bool × QUnQLitePrivate σ :=
  callEngine c d (E.unqlite_rollback d.db)

end QUnQLite

namespace QUnQLiteCursor

open QUnQLite

variable {σ : Type}

/-- The enumeration `QUnQLiteCursor::SeekDirection`. -/
inductive SeekDirection where
  | ExactMatch
  | Le
  | Ge
  deriving DecidableEq, Repr

/-- Numeric value of a `SeekDirection` member, as initialised in `qunqlitecursor.h`. -/
def SeekDirection.value (c : EngineConstants) : SeekDirection → Int
  | .ExactMatch => c.UNQLITE_CURSOR_MATCH_EXACT
  | .Le => c.UNQLITE_CURSOR_MATCH_LE
  | .Ge => c.UNQLITE_CURSOR_MATCH_GE

/-- The class `QUnQLiteCursor::Private`.  Its only state of its own is the engine cursor
`cursor`; `q_unqlite` (and `db`, a copy of the handle's pointer) refer to the owning
handle, whose state is passed to every operation.  It has no result code field. -/
structure Private where
  cursor : Nat
  deriving DecidableEq, Repr

/-- `QUnQLiteCursor::Private::setResultCode`: forwards to `q_unqlite->d->setResultCode`. -/
def Private.setResultCode (q_unqlite : QUnQLitePrivate σ) (rc : Int) : QUnQLitePrivate σ :=
  QUnQLite.setResultCode q_unqlite rc

/-- `QUnQLiteCursor::Private::isSuccess`: forwards to `q_unqlite->d->isSuccess`. -/
def Private.isSuccess (c : EngineConstants) (q_unqlite : QUnQLitePrivate σ) : Bool :=
  QUnQLite.isSuccess c q_unqlite

/-- The common shape of the boolean cursor operations: one engine call, status handed to
`d->setResultCode`, result `d->isSuccess()`. -/
def callEngine (c : EngineConstants) (q : QUnQLitePrivate σ) (r : Int × σ) :
    Bool × QUnQLitePrivate σ :=
  let q1 := Private.setResultCode { q with db := r.2 } r.1
  (Private.isSuccess c q1, q1)

/-- The constructor `QUnQLiteCursor::QUnQLiteCursor(QUnQLite *db)`. -/
def construct (E : Engine σ) (q : QUnQLitePrivate σ) : Private × QUnQLitePrivate σ :=
  let r := E.unqlite_kv_cursor_init q.db
  ({ cursor := r.1.2 }, Private.setResultCode { q with db := r.2 } r.1.1)

/-- The destructor `QUnQLiteCursor::~QUnQLiteCursor`. -/
def destruct (E : Engine σ) (q : QUnQLitePrivate σ) (d : Private) : QUnQLitePrivate σ :=
  let r := E.unqlite_kv_cursor_release q.db d.cursor
  Private.setResultCode { q with db := r.2 } r.1

/-- `QUnQLiteCursor::reset`. -/
def reset (E : Engine σ) (c : EngineConstants) (q : QUnQLitePrivate σ) (d : Private) :
    Bool × QUnQLitePrivate σ :=
  callEngine c q (E.unqlite_kv_cursor_reset q.db d.cursor)

/-- `QUnQLiteCursor::seek`. -/
def seek (E : Engine σ) (c : EngineConstants) (q : QUnQLitePrivate σ) (d : Private)
    (key : QString) (sd : SeekDirection) : Bool × QUnQLitePrivate σ :=
  callEngine c q (E.unqlite_kv_cursor_seek q.db d.cursor (toUtf8 key) (size key) (sd.value c))

/-- `QUnQLiteCursor::first`. -/
def first (E : Engine σ) (c : EngineConstants) (q : QUnQLitePrivate σ) (d : Private) :
    Bool × QUnQLitePrivate σ :=
  callEngine c q (E.unqlite_kv_cursor_first_entry q.db d.cursor)

/-- `QUnQLiteCursor::last`. -/
def last (E : Engine σ) (c : EngineConstants) (q : QUnQLitePrivate σ) (d : Private) :
    Bool × QUnQLitePrivate σ :=
  callEngine c q (E.unqlite_kv_cursor_last_entry q.db d.cursor)

/-- `QUnQLiteCursor::next`. -/
def next (E : Engine σ) (c : EngineConstants) (q : QUnQLitePrivate σ) (d : Private) :
    Bool × QUnQLitePrivate σ :=
  callEngine c q (E.unqlite_kv_cursor_next_entry q.db d.cursor)

/-- `QUnQLiteCursor::previous`. -/
def previous (E : Engine σ) (c : EngineConstants) (q : QUnQLitePrivate σ) (d : Private) :
    Bool × QUnQLitePrivate σ :=
  callEngine c q (E.unqlite_kv_cursor_prev_entry q.db d.cursor)

/-- `QUnQLiteCursor::key`. -/
def key (E : Engine σ) (c : EngineConstants) (q : QUnQLitePrivate σ) (d : Private) :
    Bytes × QUnQLitePrivate σ :=
  let r1 := E.unqlite_kv_cursor_key q.db d.cursor none
  let q1 := Private.setResultCode { q with db := r1.2 } r1.1.rc
  if Private.isSuccess c q1 then
    let r2 := E.unqlite_kv_cursor_key q1.db d.cursor (some r1.1.length)
    (filledRecord r1.1.length r2.1.written,
      Private.setResultCode { q1 with db := r2.2 } r2.1.rc)
  else
    ([], q1)

/-- `QUnQLiteCursor::value`. -/
def value (E : Engine σ) (c : EngineConstants) (q : QUnQLitePrivate σ) (d : Private) :
    Bytes × QUnQLitePrivate σ :=
  let r1 := E.unqlite_kv_cursor_data q.db d.cursor none
  let q1 := Private.setResultCode { q with db := r1.2 } r1.1.rc
  if Private.isSuccess c q1 then
    let r2 := E.unqlite_kv_cursor_data q1.db d.cursor (some r1.1.length)
    (filledRecord r1.1.length r2.1.written,
      Private.setResultCode { q1 with db := r2.2 } r2.1.rc)
  else
    ([], q1)

/-- `QUnQLiteCursor::isValid`. -/
def isValid (E : Engine σ) (q : QUnQLitePrivate σ) (d : Private) : Bool :=
  E.unqlite_kv_cursor_valid_entry q.db d.cursor == 1

/-- The member `QUnQLiteCursor::operator ++()`: its body is empty. -/
def incrementMember (_E : Engine σ) (_c : EngineConstants) (q : QUnQLitePrivate σ)
    (_d : Private) : QUnQLitePrivate σ :=
  q

/-- The free function `operator ++(QUnQLiteCursor &cursor)`: calls `cursor.next()`. -/
def incrementFree (E : Engine σ) (c : EngineConstants) (q : QUnQLitePrivate σ)
    (d : Private) : QUnQLitePrivate σ :=
  (next E c q d).2

end QUnQLiteCursor

namespace QUnQLite

variable {σ : Type}

/-- `QUnQLite::cursor`: `new QUnQLiteCursor(this)`. -/
def cursor (E : Engine σ) (d : QUnQLitePrivate σ) :
    QUnQLiteCursor.Private × QUnQLitePrivate σ :=
  QUnQLiteCursor.construct E d

end QUnQLite

/-! ## A model of the storage engine

The engine is an external collaborator of the wrapper and its code is not among the wrapper
sources.  The model below follows the specification of the engine boundary: a store of
records with byte-string keys and values, create-or-overwrite `kv_store`,
create-or-concatenate `kv_append`, the two-call length/fill read, `NotFound` for an absent
key, implicit transactions, and cursors over a range-ordered store. -/

namespace EngineModel

open QUnQLite

/-- Modelled from the spec: the key order of a range-ordered backend, which the spec leaves
to the engine; here the lexicographic order of the key bytes. -/
def keyLt : Bytes → Bytes → Bool
  | [], [] => false
  | [], _ :: _ => true
  | _ :: _, [] => false
  | a :: as, b :: bs => decide (a < b) || (a == b && keyLt as bs)

/-- Modelled from the spec: the state of the engine (absent from the sources).  `records`
are the stored key/value pairs in ascending key order; `journal` is the content to return
to on rollback while a transaction is open; `cursors` gives each engine cursor its position,
an index into `records`, or `none` when it is unpositioned or at EOF; `nextCursor` is the
name the next cursor gets. -/
structure Store where
  records : List (Bytes × Bytes)
  journal : Option (List (Bytes × Bytes))
  cursors : Nat → Option Nat
  nextCursor : Nat

/-- Modelled from the spec: the bytes the engine reads from a buffer given with an explicit
length (§6: "byte-string keys/values, explicit lengths"). -/
def argBytes (buf : Bytes) (len : Int) : Bytes :=
  buf.take len.toNat

/-- Modelled from the spec: the value stored under a key, if any. -/
def lookup (k : Bytes) : List (Bytes × Bytes) → Option Bytes
  | [] => none
  | (k', v') :: rest => if k = k' then some v' else lookup k rest

/-- Modelled from the spec: create-or-overwrite of one record, keeping ascending key
order. -/
def put (k v : Bytes) : List (Bytes × Bytes) → List (Bytes × Bytes)
  | [] => [(k, v)]
  | (k', v') :: rest =>
    if k = k' then (k, v) :: rest
    else if keyLt k k' then (k, v) :: (k', v') :: rest
    else (k', v') :: put k v rest

/-- Modelled from the spec: removal of the record of a key. -/
def erase (k : Bytes) : List (Bytes × Bytes) → List (Bytes × Bytes)
  | [] => []
  | (k', v') :: rest => if k = k' then erase k rest else (k', v') :: erase k rest

/-- Modelled from the spec: the position of the record of a key. -/
def indexOf (k : Bytes) : List (Bytes × Bytes) → Option Nat
  | [] => none
  | (k', _) :: rest => if k = k' then some 0 else (indexOf k rest).map (· + 1)

/-- Modelled from the spec: the position of the greatest stored key strictly less than `k`
(§4.2, `Le`). -/
def seekLe (k : Bytes) (recs : List (Bytes × Bytes)) : Option Nat :=
  let n := (recs.filter (fun r => keyLt r.1 k)).length
  if n = 0 then none else some (n - 1)

/-- Modelled from the spec: the position of the smallest stored key strictly greater than
`k` (§4.2, `Ge`). -/
def seekGe (k : Bytes) (recs : List (Bytes × Bytes)) : Option Nat :=
  let n := (recs.filter (fun r => !keyLt k r.1)).length
  if n < recs.length then some n else none

/-- Modelled from the spec: a mutating call opens a transaction automatically if none is
active (§4.1). -/
def openJournal (s : Store) : Option (List (Bytes × Bytes)) :=
  some (s.journal.getD s.records)

/-- Modelled from the spec: the two-call length/fill read of `data` (§6): with a NULL
buffer the length is reported, otherwise the buffer is filled up to its length. -/
def readOut (c : EngineConstants) (data : Bytes) : Option Int → ReadResult
  | none => { rc := c.UNQLITE_OK, length := data.length, written := [] }
  | some n => { rc := c.UNQLITE_OK, length := min n data.length, written := data.take n.toNat }

/-- Modelled from the spec: the record an engine cursor stands on, if it is valid. -/
def current (s : Store) (cur : Nat) : Option (Bytes × Bytes) :=
  match s.cursors cur with
  | none => none
  | some i => s.records.get? i

/-- Modelled from the spec: move an engine cursor. -/
def setCursor (s : Store) (cur : Nat) (p : Option Nat) : Store :=
  { s with cursors := fun j => if j = cur then p else s.cursors j }

/-- Modelled from the spec: the result of a positioning call that aimed at `target`:
success on a record, `NotFound` and EOF otherwise (§4.2). -/
def position (c : EngineConstants) (s : Store) (cur : Nat) (target : Option Nat) :
    Int × Store :=
  match target with
  | some i => (c.UNQLITE_OK, setCursor s cur (some i))
  | none => (c.UNQLITE_NOTFOUND, setCursor s cur none)

/-- Modelled from the spec: the storage engine of §6 (absent from the sources), as a
range-ordered in-memory store.  Statuses the spec leaves to the engine are chosen here:
a relative move or a read on a cursor that is not on a record answers `UNQLITE_EOF`. -/
def engine (c : EngineConstants) : Engine Store where
  unqlite_open := fun s _ _ => (c.UNQLITE_OK, s)
  unqlite_close := fun s => (c.UNQLITE_OK, { s with journal := none })
  unqlite_kv_append := fun s kb kl vb vl =>
    let k := argBytes kb kl
    let v := argBytes vb vl
    match lookup k s.records with
    | some old =>
      (c.UNQLITE_OK, { s with records := put k (old ++ v) s.records, journal := openJournal s })
    | none =>
      (c.UNQLITE_OK, { s with records := put k v s.records, journal := openJournal s })
  unqlite_kv_store := fun s kb kl vb vl =>
    (c.UNQLITE_OK,
      { s with records := put (argBytes kb kl) (argBytes vb vl) s.records,
               journal := openJournal s })
  unqlite_kv_fetch := fun s kb kl out =>
    match lookup (argBytes kb kl) s.records with
    | some v => (readOut c v out, s)
    | none => ({ rc := c.UNQLITE_NOTFOUND, length := 0, written := [] }, s)
  unqlite_kv_delete := fun s kb kl =>
    match lookup (argBytes kb kl) s.records with
    | some _ =>
      (c.UNQLITE_OK,
        { s with records := erase (argBytes kb kl) s.records, journal := openJournal s })
    | none => (c.UNQLITE_NOTFOUND, s)
  unqlite_begin := fun s => (c.UNQLITE_OK, { s with journal := openJournal s })
  unqlite_commit := fun s => (c.UNQLITE_OK, { s with journal := none })
  unqlite_rollback := fun s =>
    match s.journal with
    | some old => (c.UNQLITE_OK, { s with records := old, journal := none })
    | none => (c.UNQLITE_OK, s)
  unqlite_kv_cursor_init := fun s =>
    ((c.UNQLITE_OK, s.nextCursor),
      { setCursor s s.nextCursor none with nextCursor := s.nextCursor + 1 })
  unqlite_kv_cursor_release := fun s cur => (c.UNQLITE_OK, setCursor s cur none)
  unqlite_kv_cursor_reset := fun s cur => (c.UNQLITE_OK, setCursor s cur none)
  unqlite_kv_cursor_seek := fun s cur kb kl dir =>
    let k := argBytes kb kl
    if dir = c.UNQLITE_CURSOR_MATCH_EXACT then position c s cur (indexOf k s.records)
    else if dir = c.UNQLITE_CURSOR_MATCH_LE then position c s cur (seekLe k s.records)
    else if dir = c.UNQLITE_CURSOR_MATCH_GE then position c s cur (seekGe k s.records)
    else position c s cur (indexOf k s.records)
  unqlite_kv_cursor_first_entry := fun s cur =>
    (c.UNQLITE_OK, setCursor s cur (if s.records = [] then none else some 0))
  unqlite_kv_cursor_last_entry := fun s cur =>
    (c.UNQLITE_OK,
      setCursor s cur (if s.records = [] then none else some (s.records.length - 1)))
  unqlite_kv_cursor_next_entry := fun s cur =>
    match s.cursors cur with
    | some i =>
      if i < s.records.length then
        (c.UNQLITE_OK, setCursor s cur (if i + 1 < s.records.length then some (i + 1) else none))
      else (c.UNQLITE_EOF, s)
    | none => (c.UNQLITE_EOF, s)
  unqlite_kv_cursor_prev_entry := fun s cur =>
    match s.cursors cur with
    | some i =>
      if i < s.records.length then
        (c.UNQLITE_OK, setCursor s cur (if i = 0 then none else some (i - 1)))
      else (c.UNQLITE_EOF, s)
    | none => (c.UNQLITE_EOF, s)
  unqlite_kv_cursor_key := fun s cur out =>
    match current s cur with
    | some r => (readOut c r.1 out, s)
    | none => ({ rc := c.UNQLITE_EOF, length := 0, written := [] }, s)
  unqlite_kv_cursor_data := fun s cur out =>
    match current s cur with
    | some r => (readOut c r.2 out, s)
    | none => ({ rc := c.UNQLITE_EOF, length := 0, written := [] }, s)
  unqlite_kv_cursor_valid_entry := fun s cur =>
    match current s cur with
    | some _ => 1
    | none => 0

/-- An empty store with no transaction and no cursor. -/
def emptyStore : Store :=
  { records := [], journal := none, cursors := fun _ => none, nextCursor := 0 }

/-- The values the constants have in the published engine header `unqlite.h`; used to
evaluate the model on concrete inputs. -/
def unqliteHeader : EngineConstants where
  UNQLITE_OK := 0
  UNQLITE_NOMEM := -1
  UNQLITE_ABORT := -10
  UNQLITE_IOERR := -2
  UNQLITE_CORRUPT := -24
  UNQLITE_LOCKED := -4
  UNQLITE_BUSY := -14
  UNQLITE_DONE := -28
  UNQLITE_PERM := -19
  UNQLITE_NOTIMPLEMENTED := -17
  UNQLITE_NOTFOUND := -6
  UNQLITE_NOOP := -20
  UNQLITE_INVALID := -9
  UNQLITE_EOF := -18
  UNQLITE_UNKNOWN := -13
  UNQLITE_LIMIT := -7
  UNQLITE_EXISTS := -11
  UNQLITE_EMPTY := -3
  UNQLITE_COMPILE_ERR := -70
  UNQLITE_VM_ERR := -71
  UNQLITE_FULL := -73
  UNQLITE_CANTOPEN := -74
  UNQLITE_READ_ONLY := -75
  UNQLITE_LOCKERR := -76
  UNQLITE_OPEN_CREATE := 4
  UNQLITE_OPEN_READWRITE := 2
  UNQLITE_OPEN_READONLY := 1
  UNQLITE_OPEN_MMAP := 256
  UNQLITE_CURSOR_MATCH_EXACT := 1
  UNQLITE_CURSOR_MATCH_LE := 2
  UNQLITE_CURSOR_MATCH_GE := 3

/-- A handle on an empty store whose last operation succeeded. -/
def freshHandle : QUnQLitePrivate Store :=
  { resultCode := 0, db := emptyStore }

/-- The example of the specification: "1", "2", "3" stored under "a", "b", "c" in an empty
store, and a cursor created on the handle. -/
def abcHandle : QUnQLitePrivate Store :=
  (cursor (engine unqliteHeader)
    (store (engine unqliteHeader) unqliteHeader
      (store (engine unqliteHeader) unqliteHeader
        (store (engine unqliteHeader) unqliteHeader freshHandle ['a'] ['1']).2
        ['b'] ['2']).2
      ['c'] ['3']).2).2

/-- The handle after "abc" has been stored under "k" in an empty store. -/
def kAbcHandle : QUnQLitePrivate Store :=
  (store (engine unqliteHeader) unqliteHeader freshHandle ['k'] ['a', 'b', 'c']).2

/-- The handle after a cursor has been created on `kAbcHandle` and moved to the first
record. -/
def onRecordK : QUnQLitePrivate Store :=
  (QUnQLiteCursor.first (engine unqliteHeader) unqliteHeader
    (cursor (engine unqliteHeader) kAbcHandle).2
    (cursor (engine unqliteHeader) kAbcHandle).1).2

/-- An engine that answers as `engine c` does, except that every read into a buffer (the
second call of the length/fill protocol) fails with `UNQLITE_IOERR` and copies nothing. -/
def failingFill (c : EngineConstants) : Engine Store :=
  { engine c with
    unqlite_kv_fetch := fun s kb kl out =>
      match out with
      | none => (engine c).unqlite_kv_fetch s kb kl none
      | some _ => ({ rc := c.UNQLITE_IOERR, length := 0, written := [] }, s)
    unqlite_kv_cursor_key := fun s cur out =>
      match out with
      | none => (engine c).unqlite_kv_cursor_key s cur none
      | some _ => ({ rc := c.UNQLITE_IOERR, length := 0, written := [] }, s)
    unqlite_kv_cursor_data := fun s cur out =>
      match out with
      | none => (engine c).unqlite_kv_cursor_data s cur none
      | some _ => ({ rc := c.UNQLITE_IOERR, length := 0, written := [] }, s) }

/-- The records of a store are in strictly ascending key order (so keys are distinct). -/
def Ascending (recs : List (Bytes × Bytes)) : Prop :=
  recs.Pairwise (fun a b => keyLt a.1 b.1 = true)

instance (recs : List (Bytes × Bytes)) : Decidable (Ascending recs) :=
  inferInstanceAs (Decidable (recs.Pairwise (fun (a b : Bytes × Bytes) => keyLt a.1 b.1 = true)))

/-- The invariant of the engine model: the records, and the content kept for rollback, are
in strictly ascending key order. -/
def WellFormed (s : Store) : Prop :=
  Ascending s.records ∧ ∀ old, s.journal = some old → Ascending old

/-- The handle state after `n` further calls of `QUnQLiteCursor::next`. -/
def nexts (c : EngineConstants) (d : QUnQLiteCursor.Private) :
    Nat → QUnQLitePrivate Store → QUnQLitePrivate Store
  | 0, q => q
  | n + 1, q => nexts c d n (QUnQLiteCursor.next (engine c) c q d).2

end EngineModel


/-! ## Engine calls and operation sequences

A log of engine calls, to state which calls an operation issues, and the operations of a
handle and one of its cursors as data, to state properties of sequences of operations. -/

namespace QUnQLite

variable {σ : Type}

/-- One call of an engine entry point, with the arguments it was given. -/
inductive EngineCall where
  | unqlite_open (name : Bytes) (mode : Nat)
  | unqlite_close
  | unqlite_kv_append (key : Bytes) (keyLen : Int) (data : Bytes) (dataLen : Int)
  | unqlite_kv_store (key : Bytes) (keyLen : Int) (data : Bytes) (dataLen : Int)
  | unqlite_kv_fetch (key : Bytes) (keyLen : Int) (out : Option Int)
  | unqlite_kv_delete (key : Bytes) (keyLen : Int)
  | unqlite_begin
  | unqlite_commit
  | unqlite_rollback
  | unqlite_kv_cursor_init
  | unqlite_kv_cursor_release (cur : Nat)
  | unqlite_kv_cursor_reset (cur : Nat)
  | unqlite_kv_cursor_seek (cur : Nat) (key : Bytes) (keyLen : Int) (dir : Int)
  | unqlite_kv_cursor_first_entry (cur : Nat)
  | unqlite_kv_cursor_last_entry (cur : Nat)
  | unqlite_kv_cursor_next_entry (cur : Nat)
  | unqlite_kv_cursor_prev_entry (cur : Nat)
  | unqlite_kv_cursor_key (cur : Nat) (out : Option Int)
  | unqlite_kv_cursor_data (cur : Nat) (out : Option Int)
  deriving DecidableEq, Repr

/-- The answer of an engine call together with the engine state and the log extended by
that call. -/
def logged {α : Type} (r : α × σ) (log : List EngineCall) (call : EngineCall) :
    α × (σ × List EngineCall) :=
  (r.1, (r.2, log ++ [call]))

/-- The engine `E` with a log: every call answers as `E` does and is appended to the log
kept next to the engine state.  The validity query has no effect on the state and is not
logged. -/
def traced (E : Engine σ) : Engine (σ × List EngineCall) where
  unqlite_open := fun s name mode =>
    logged (E.unqlite_open s.1 name mode) s.2 (.unqlite_open name mode)
  unqlite_close := fun s => logged (E.unqlite_close s.1) s.2 .unqlite_close
  unqlite_kv_append := fun s kb kl vb vl =>
    logged (E.unqlite_kv_append s.1 kb kl vb vl) s.2 (.unqlite_kv_append kb kl vb vl)
  unqlite_kv_store := fun s kb kl vb vl =>
    logged (E.unqlite_kv_store s.1 kb kl vb vl) s.2 (.unqlite_kv_store kb kl vb vl)
  unqlite_kv_fetch := fun s kb kl out =>
    logged (E.unqlite_kv_fetch s.1 kb kl out) s.2 (.unqlite_kv_fetch kb kl out)
  unqlite_kv_delete := fun s kb kl =>
    logged (E.unqlite_kv_delete s.1 kb kl) s.2 (.unqlite_kv_delete kb kl)
  unqlite_begin := fun s => logged (E.unqlite_begin s.1) s.2 .unqlite_begin
  unqlite_commit := fun s => logged (E.unqlite_commit s.1) s.2 .unqlite_commit
  unqlite_rollback := fun s => logged (E.unqlite_rollback s.1) s.2 .unqlite_rollback
  unqlite_kv_cursor_init := fun s =>
    logged (E.unqlite_kv_cursor_init s.1) s.2 .unqlite_kv_cursor_init
  unqlite_kv_cursor_release := fun s cur =>
    logged (E.unqlite_kv_cursor_release s.1 cur) s.2 (.unqlite_kv_cursor_release cur)
  unqlite_kv_cursor_reset := fun s cur =>
    logged (E.unqlite_kv_cursor_reset s.1 cur) s.2 (.unqlite_kv_cursor_reset cur)
  unqlite_kv_cursor_seek := fun s cur kb kl dir =>
    logged (E.unqlite_kv_cursor_seek s.1 cur kb kl dir) s.2
      (.unqlite_kv_cursor_seek cur kb kl dir)
  unqlite_kv_cursor_first_entry := fun s cur =>
    logged (E.unqlite_kv_cursor_first_entry s.1 cur) s.2 (.unqlite_kv_cursor_first_entry cur)
  unqlite_kv_cursor_last_entry := fun s cur =>
    logged (E.unqlite_kv_cursor_last_entry s.1 cur) s.2 (.unqlite_kv_cursor_last_entry cur)
  unqlite_kv_cursor_next_entry := fun s cur =>
    logged (E.unqlite_kv_cursor_next_entry s.1 cur) s.2 (.unqlite_kv_cursor_next_entry cur)
  unqlite_kv_cursor_prev_entry := fun s cur =>
    logged (E.unqlite_kv_cursor_prev_entry s.1 cur) s.2 (.unqlite_kv_cursor_prev_entry cur)
  unqlite_kv_cursor_key := fun s cur out =>
    logged (E.unqlite_kv_cursor_key s.1 cur out) s.2 (.unqlite_kv_cursor_key cur out)
  unqlite_kv_cursor_data := fun s cur out =>
    logged (E.unqlite_kv_cursor_data s.1 cur out) s.2 (.unqlite_kv_cursor_data cur out)
  unqlite_kv_cursor_valid_entry := fun s cur => E.unqlite_kv_cursor_valid_entry s.1 cur

/-- The status the engine `E` answers to a call made in the engine state `s`. -/
def Engine.status (E : Engine σ) (s : σ) : EngineCall → Int
  | .unqlite_open name mode => (E.unqlite_open s name mode).1
  | .unqlite_close => (E.unqlite_close s).1
  | .unqlite_kv_append kb kl vb vl => (E.unqlite_kv_append s kb kl vb vl).1
  | .unqlite_kv_store kb kl vb vl => (E.unqlite_kv_store s kb kl vb vl).1
  | .unqlite_kv_fetch kb kl out => (E.unqlite_kv_fetch s kb kl out).1.rc
  | .unqlite_kv_delete kb kl => (E.unqlite_kv_delete s kb kl).1
  | .unqlite_begin => (E.unqlite_begin s).1
  | .unqlite_commit => (E.unqlite_commit s).1
  | .unqlite_rollback => (E.unqlite_rollback s).1
  | .unqlite_kv_cursor_init => (E.unqlite_kv_cursor_init s).1.1
  | .unqlite_kv_cursor_release cur => (E.unqlite_kv_cursor_release s cur).1
  | .unqlite_kv_cursor_reset cur => (E.unqlite_kv_cursor_reset s cur).1
  | .unqlite_kv_cursor_seek cur kb kl dir => (E.unqlite_kv_cursor_seek s cur kb kl dir).1
  | .unqlite_kv_cursor_first_entry cur => (E.unqlite_kv_cursor_first_entry s cur).1
  | .unqlite_kv_cursor_last_entry cur => (E.unqlite_kv_cursor_last_entry s cur).1
  | .unqlite_kv_cursor_next_entry cur => (E.unqlite_kv_cursor_next_entry s cur).1
  | .unqlite_kv_cursor_prev_entry cur => (E.unqlite_kv_cursor_prev_entry s cur).1
  | .unqlite_kv_cursor_key cur out => (E.unqlite_kv_cursor_key s cur out).1.rc
  | .unqlite_kv_cursor_data cur out => (E.unqlite_kv_cursor_data s cur out).1.rc

/-- The engine state the engine `E` is left in by a call made in the engine state `s`. -/
def Engine.stateAfterCall (E : Engine σ) (s : σ) : EngineCall → σ
  | .unqlite_open name mode => (E.unqlite_open s name mode).2
  | .unqlite_close => (E.unqlite_close s).2
  | .unqlite_kv_append kb kl vb vl => (E.unqlite_kv_append s kb kl vb vl).2
  | .unqlite_kv_store kb kl vb vl => (E.unqlite_kv_store s kb kl vb vl).2
  | .unqlite_kv_fetch kb kl out => (E.unqlite_kv_fetch s kb kl out).2
  | .unqlite_kv_delete kb kl => (E.unqlite_kv_delete s kb kl).2
  | .unqlite_begin => (E.unqlite_begin s).2
  | .unqlite_commit => (E.unqlite_commit s).2
  | .unqlite_rollback => (E.unqlite_rollback s).2
  | .unqlite_kv_cursor_init => (E.unqlite_kv_cursor_init s).2
  | .unqlite_kv_cursor_release cur => (E.unqlite_kv_cursor_release s cur).2
  | .unqlite_kv_cursor_reset cur => (E.unqlite_kv_cursor_reset s cur).2
  | .unqlite_kv_cursor_seek cur kb kl dir => (E.unqlite_kv_cursor_seek s cur kb kl dir).2
  | .unqlite_kv_cursor_first_entry cur => (E.unqlite_kv_cursor_first_entry s cur).2
  | .unqlite_kv_cursor_last_entry cur => (E.unqlite_kv_cursor_last_entry s cur).2
  | .unqlite_kv_cursor_next_entry cur => (E.unqlite_kv_cursor_next_entry s cur).2
  | .unqlite_kv_cursor_prev_entry cur => (E.unqlite_kv_cursor_prev_entry s cur).2
  | .unqlite_kv_cursor_key cur out => (E.unqlite_kv_cursor_key s cur out).2
  | .unqlite_kv_cursor_data cur out => (E.unqlite_kv_cursor_data s cur out).2

/-- The operations of `QUnQLite` and `QUnQLiteCursor` that return `bool` through
`isSuccess()`. -/
inductive BoolOp where
  | openDb (name : QString) (mode : OpenMode)
  | close
  | append (key value : QString)
  | store (key value : QString)
  | remove (key : QString)
  | begin
  | commit
  | rollback
  | reset
  | seek (key : QString) (sd : QUnQLiteCursor.SeekDirection)
  | first
  | last
  | next
  | previous

/-- Run a boolean operation on the handle state `q`; the cursor operations run on the
cursor `d` of that handle. -/
def BoolOp.run (E : Engine σ) (c : EngineConstants) (d : QUnQLiteCursor.Private) :
    BoolOp → QUnQLitePrivate σ → Bool × QUnQLitePrivate σ
  | .openDb name mode, q => QUnQLite.openDb E c q name mode
  | .close, q => QUnQLite.close E c q
  | .append key value, q => QUnQLite.append E c q key value
  | .store key value, q => QUnQLite.store E c q key value
  | .remove key, q => QUnQLite.remove E c q key
  | .begin, q => QUnQLite.begin E c q
  | .commit, q => QUnQLite.commit E c q
  | .rollback, q => QUnQLite.rollback E c q
  | .reset, q => QUnQLiteCursor.reset E c q d
  | .seek key sd, q => QUnQLiteCursor.seek E c q d key sd
  | .first, q => QUnQLiteCursor.first E c q d
  | .last, q => QUnQLiteCursor.last E c q d
  | .next, q => QUnQLiteCursor.next E c q d
  | .previous, q => QUnQLiteCursor.previous E c q d

/-- The engine call written in the body of a boolean operation. -/
def BoolOp.engineCall (c : EngineConstants) (d : QUnQLiteCursor.Private) :
    BoolOp → EngineCall
  | .openDb name mode => .unqlite_open (toUtf8 name) (mode.value c)
  | .close => .unqlite_close
  | .append key value =>
    .unqlite_kv_append (toUtf8 key) (size key) (toUtf8 value) (size value)
  | .store key value => .unqlite_kv_store (toUtf8 key) (size key) (toUtf8 value) (size value)
  | .remove key => .unqlite_kv_delete (toUtf8 key) (size key)
  | .begin => .unqlite_begin
  | .commit => .unqlite_commit
  | .rollback => .unqlite_rollback
  | .reset => .unqlite_kv_cursor_reset d.cursor
  | .seek key sd => .unqlite_kv_cursor_seek d.cursor (toUtf8 key) (size key) (sd.value c)
  | .first => .unqlite_kv_cursor_first_entry d.cursor
  | .last => .unqlite_kv_cursor_last_entry d.cursor
  | .next => .unqlite_kv_cursor_next_entry d.cursor
  | .previous => .unqlite_kv_cursor_prev_entry d.cursor

/-- The operations of a handle and of one of its cursors. -/
inductive Op where
  | boolean (op : BoolOp)
  | fetch (key : QString)
  | key
  | value
  | isValid

/-- What an operation returns to its caller. -/
inductive OpResult where
  | boolean (b : Bool)
  | bytes (bs : Bytes)
  deriving DecidableEq, Repr

/-- Run one operation on the handle state `q` and the cursor `d`.  `isValid` is a `const`
member without `setResultCode`: it hands the handle state back as it got it. -/
def Op.run (E : Engine σ) (c : EngineConstants) (d : QUnQLiteCursor.Private) :
    Op → QUnQLitePrivate σ → OpResult × QUnQLitePrivate σ
  | .boolean op, q => (.boolean (op.run E c d q).1, (op.run E c d q).2)
  | .fetch k, q => (.bytes (QUnQLite.fetch E c q k).1, (QUnQLite.fetch E c q k).2)
  | .key, q => (.bytes (QUnQLiteCursor.key E c q d).1, (QUnQLiteCursor.key E c q d).2)
  | .value, q => (.bytes (QUnQLiteCursor.value E c q d).1, (QUnQLiteCursor.value E c q d).2)
  | .isValid, q => (.boolean (QUnQLiteCursor.isValid E q d), q)

/-- Run a sequence of operations; for each, what it returned and the handle's
`lastErrorCode()` after it. -/
def runOps (E : Engine σ) (c : EngineConstants) (d : QUnQLiteCursor.Private) :
    List Op → QUnQLitePrivate σ → List (OpResult × Int)
  | [], _ => []
  | op :: rest, q =>
    ((op.run E c d q).1, lastErrorCode (op.run E c d q).2) :: runOps E c d rest (op.run E c d q).2

/-- The handle state after a sequence of operations. -/
def stateAfter (E : Engine σ) (c : EngineConstants) (d : QUnQLiteCursor.Private) :
    List Op → QUnQLitePrivate σ → QUnQLitePrivate σ
  | [], q => q
  | op :: rest, q => stateAfter E c d rest (op.run E c d q).2

end QUnQLite

namespace EngineModel

open QUnQLite

/-- The example store with its cursor moved to the first record, "a". -/
def onRecordA : QUnQLitePrivate Store :=
  (QUnQLiteCursor.first (engine unqliteHeader) unqliteHeader abcHandle { cursor := 0 }).2

/-- The handle after "v" has been stored under the two-character key U+00E9 "a" in an empty
store (the engine key is the two bytes 0xC3 0xA9) and a cursor has been created. -/
def eAcuteHandle : QUnQLitePrivate Store :=
  (cursor (engine unqliteHeader)
    (store (engine unqliteHeader) unqliteHeader freshHandle [Char.ofNat 233, 'a'] ['v']).2).2

/-- The handle after "v" has been stored under the two-character key U+00C0 "a" in an empty
store (the engine key is the two bytes 0xC3 0x80) and a cursor has been created. -/
def aGraveHandle : QUnQLitePrivate Store :=
  (cursor (engine unqliteHeader)
    (store (engine unqliteHeader) unqliteHeader freshHandle [Char.ofNat 192, 'a'] ['v']).2).2

/-- An engine without state that answers every call with the status `rc`, reports length
0 and copies nothing; every cursor is invalid. -/
def answering (rc : Int) : Engine Unit where
  unqlite_open := fun _ _ _ => (rc, ())
  unqlite_close := fun _ => (rc, ())
  unqlite_kv_append := fun _ _ _ _ _ => (rc, ())
  unqlite_kv_store := fun _ _ _ _ _ => (rc, ())
  unqlite_kv_fetch := fun _ _ _ _ => ({ rc := rc, length := 0, written := [] }, ())
  unqlite_kv_delete := fun _ _ _ => (rc, ())
  unqlite_begin := fun _ => (rc, ())
  unqlite_commit := fun _ => (rc, ())
  unqlite_rollback := fun _ => (rc, ())
  unqlite_kv_cursor_init := fun _ => ((rc, 0), ())
  unqlite_kv_cursor_release := fun _ _ => (rc, ())
  unqlite_kv_cursor_reset := fun _ _ => (rc, ())
  unqlite_kv_cursor_seek := fun _ _ _ _ _ => (rc, ())
  unqlite_kv_cursor_first_entry := fun _ _ => (rc, ())
  unqlite_kv_cursor_last_entry := fun _ _ => (rc, ())
  unqlite_kv_cursor_next_entry := fun _ _ => (rc, ())
  unqlite_kv_cursor_prev_entry := fun _ _ => (rc, ())
  unqlite_kv_cursor_key := fun _ _ _ => ({ rc := rc, length := 0, written := [] }, ())
  unqlite_kv_cursor_data := fun _ _ _ => ({ rc := rc, length := 0, written := [] }, ())
  unqlite_kv_cursor_valid_entry := fun _ _ => 0

end EngineModel


/-! ## Theorems -/

/-! ### The result code of the handle -/

namespace QUnQLite

open QUnQLiteCursor

variable {σ : Type}

theorem lastErrorCode_callEngine (c : EngineConstants) (d : QUnQLitePrivate σ) (r : Int × σ) :
    lastErrorCode (callEngine c d r).2 = r.1 ∧
      ((callEngine c d r).1 = true ↔ r.1 = ResultCode.Ok.value c) := by
  simp [callEngine, setResultCode, isSuccess, lastErrorCode]

end QUnQLite

namespace QUnQLiteCursor

open QUnQLite EngineModel

variable {σ : Type}

theorem lastErrorCode_cursor_callEngine (c : EngineConstants) (q : QUnQLitePrivate σ)
    (r : Int × σ) :
    lastErrorCode (callEngine c q r).2 = r.1 ∧
      ((callEngine c q r).1 = true ↔ r.1 = ResultCode.Ok.value c) := by
  simp [callEngine, Private.setResultCode, Private.isSuccess, setResultCode, isSuccess,
    lastErrorCode]

end QUnQLiteCursor

/-! ### Reads whose length query fails -/

namespace QUnQLite

open QUnQLiteCursor

variable {σ : Type}

/-- When the length query of `fetch` fails, the result is empty and the last-result-code is
the status of that query. -/
theorem fetch_of_failed_length_query (E : Engine σ) (c : EngineConstants)
    (d : QUnQLitePrivate σ) (k : QString)
    (h : (E.unqlite_kv_fetch d.db (toUtf8 k) (size k) none).1.rc ≠ ResultCode.Ok.value c) :
    (fetch E c d k).1 = [] ∧
    lastErrorCode (fetch E c d k).2
      = (E.unqlite_kv_fetch d.db (toUtf8 k) (size k) none).1.rc := by
  simp [fetch, setResultCode, isSuccess, lastErrorCode, h]

end QUnQLite

namespace QUnQLiteCursor

open QUnQLite EngineModel

variable {σ : Type}

/-- When the length query of `key` or `value` fails, the result is empty and the result
code is the status of that query. -/
theorem key_value_of_failed_length_query (E : Engine σ) (c : EngineConstants)
    (q : QUnQLitePrivate σ) (d : Private) :
    ((E.unqlite_kv_cursor_key q.db d.cursor none).1.rc ≠ ResultCode.Ok.value c →
      (key E c q d).1 = [] ∧
      lastErrorCode (key E c q d).2 = (E.unqlite_kv_cursor_key q.db d.cursor none).1.rc) ∧
    ((E.unqlite_kv_cursor_data q.db d.cursor none).1.rc ≠ ResultCode.Ok.value c →
      (value E c q d).1 = [] ∧
      lastErrorCode (value E c q d).2
        = (E.unqlite_kv_cursor_data q.db d.cursor none).1.rc) := by
  constructor <;> intro h <;>
    simp [key, value, Private.setResultCode, Private.isSuccess, setResultCode, isSuccess,
      lastErrorCode, h]

end QUnQLiteCursor

/-! ### ASCII strings -/

namespace QUnQLite

open QUnQLiteCursor

variable {σ : Type}

theorem toUtf8_ascii : ∀ s : QString, (∀ ch ∈ s, ch.toNat < 0x80) →
    toUtf8 s = s.map Char.toNat ∧ size s = s.length
  | [], _ => ⟨rfl, rfl⟩
  | ch :: rest, h => by
    have h1 : ch.toNat < 0x80 := h ch (List.mem_cons_self _ _)
    have h2 := toUtf8_ascii rest (fun x hx => h x (List.mem_cons_of_mem _ hx))
    have h3 : ch.toNat < 0x10000 := by omega
    constructor
    · simp [toUtf8, utf8Bytes, h1, h2.1]
    · simp [size, utf16Units, h3, h2.2]; omega

end QUnQLite

/-! ### The engine model: key order and the store invariant -/

namespace EngineModel

open QUnQLite QUnQLiteCursor

theorem keyLt_irrefl (a : Bytes) : keyLt a a = false := by
  induction a with
  | nil => rfl
  | cons x xs ih => simp [keyLt, ih]

theorem keyLt_trans : ∀ (a b c : Bytes), keyLt a b = true → keyLt b c = true →
    keyLt a c = true
  | [], [], _, h, _ => by simp [keyLt] at h
  | [], _ :: _, [], _, h => by simp [keyLt] at h
  | [], _ :: _, _ :: _, _, _ => by simp [keyLt]
  | _ :: _, [], _, h, _ => by simp [keyLt] at h
  | _ :: _, _ :: _, [], _, h => by simp [keyLt] at h
  | x :: xs, y :: ys, z :: zs, h1, h2 => by
    simp only [keyLt, Bool.or_eq_true, decide_eq_true_eq, Bool.and_eq_true, beq_iff_eq]
      at h1 h2 ⊢
    rcases h1 with h1 | ⟨h1, h1'⟩ <;> rcases h2 with h2 | ⟨h2, h2'⟩
    · left; omega
    · left; omega
    · left; omega
    · right; exact ⟨by omega, keyLt_trans xs ys zs h1' h2'⟩

theorem keyLt_total : ∀ (a b : Bytes), a ≠ b → keyLt a b = false → keyLt b a = true
  | [], [], h, _ => absurd rfl h
  | [], _ :: _, _, h => by simp [keyLt] at h
  | _ :: _, [], _, _ => by simp [keyLt]
  | x :: xs, y :: ys, hne, h => by
    simp only [keyLt, Bool.or_eq_false_iff, decide_eq_false_iff_not, Bool.and_eq_false_imp,
      beq_iff_eq, Bool.or_eq_true, decide_eq_true_eq, Bool.and_eq_true] at h ⊢
    by_cases hxy : x = y
    · right
      refine ⟨hxy.symm, keyLt_total xs ys ?_ (h.2 hxy)⟩
      intro hs; exact hne (by rw [hxy, hs])
    · left; omega

theorem mem_put (k v : Bytes) (x : Bytes × Bytes) :
    ∀ recs : List (Bytes × Bytes), x ∈ put k v recs → x = (k, v) ∨ x ∈ recs
  | [], h => by simpa [put] using h
  | (k', v') :: rest, h => by
    simp only [put] at h
    split at h
    · rcases List.mem_cons.mp h with h | h
      · exact Or.inl h
      · exact Or.inr (List.mem_cons_of_mem _ h)
    · split at h
      · rcases List.mem_cons.mp h with h | h
        · exact Or.inl h
        · exact Or.inr h
      · rcases List.mem_cons.mp h with h | h
        · exact Or.inr (by rw [h]; exact List.mem_cons_self _ _)
        · rcases mem_put k v x rest h with h | h
          · exact Or.inl h
          · exact Or.inr (List.mem_cons_of_mem _ h)

theorem put_ascending (k v : Bytes) :
    ∀ recs : List (Bytes × Bytes), Ascending recs → Ascending (put k v recs)
  | [], _ => by simp [put, Ascending]
  | (k', v') :: rest, h => by
    unfold Ascending at h ⊢
    rw [List.pairwise_cons] at h
    simp only [put]
    split
    · next hk =>
      rw [List.pairwise_cons]
      exact ⟨fun x hx => by rw [hk]; exact h.1 x hx, h.2⟩
    · split
      · next hk hlt =>
        rw [List.pairwise_cons, List.pairwise_cons]
        refine ⟨fun x hx => ?_, h⟩
        rcases List.mem_cons.mp hx with hx | hx
        · rw [hx]; exact hlt
        · exact keyLt_trans _ _ _ hlt (h.1 x hx)
      · next hk hlt =>
        rw [List.pairwise_cons]
        refine ⟨fun x hx => ?_, put_ascending k v rest h.2⟩
        rcases mem_put k v x rest hx with hx | hx
        · rw [hx]
          exact keyLt_total k k' hk (by simpa using hlt)
        · exact h.1 x hx

theorem mem_erase (k : Bytes) (x : Bytes × Bytes) :
    ∀ recs : List (Bytes × Bytes), x ∈ erase k recs → x ∈ recs
  | [], h => by simp [erase] at h
  | (k', v') :: rest, h => by
    simp only [erase] at h
    split at h
    · exact List.mem_cons_of_mem _ (mem_erase k x rest h)
    · rcases List.mem_cons.mp h with h | h
      · rw [h]; exact List.mem_cons_self _ _
      · exact List.mem_cons_of_mem _ (mem_erase k x rest h)

theorem erase_ascending (k : Bytes) :
    ∀ recs : List (Bytes × Bytes), Ascending recs → Ascending (erase k recs)
  | [], _ => by simp [erase, Ascending]
  | (k', v') :: rest, h => by
    unfold Ascending at h ⊢
    rw [List.pairwise_cons] at h
    simp only [erase]
    split
    · exact erase_ascending k rest h.2
    · rw [List.pairwise_cons]
      exact ⟨fun x hx => h.1 x (mem_erase k x rest hx), erase_ascending k rest h.2⟩

theorem openJournal_ascending (s : Store) (h : WellFormed s) :
    ∀ old, openJournal s = some old → Ascending old := by
  intro old ho
  unfold openJournal at ho
  cases hj : s.journal with
  | none => rw [hj] at ho; simp at ho; rw [← ho]; exact h.1
  | some j => rw [hj] at ho; simp at ho; rw [← ho]; exact h.2 j hj

theorem emptyStore_wellFormed : WellFormed emptyStore := by
  constructor
  · simp [emptyStore, Ascending]
  · intro old h; simp [emptyStore] at h

/-- Every engine call of the model keeps the store well formed: records stay in strictly
ascending key order, so stored keys stay distinct. -/
theorem engine_keeps_wellFormed (c : EngineConstants) (s : Store) (h : WellFormed s)
    (name kb vb : Bytes) (mode : Nat) (kl vl dir : Int) (cur : Nat) (out : Option Int) :
    WellFormed ((engine c).unqlite_open s name mode).2 ∧
    WellFormed ((engine c).unqlite_close s).2 ∧
    WellFormed ((engine c).unqlite_kv_append s kb kl vb vl).2 ∧
    WellFormed ((engine c).unqlite_kv_store s kb kl vb vl).2 ∧
    WellFormed ((engine c).unqlite_kv_fetch s kb kl out).2 ∧
    WellFormed ((engine c).unqlite_kv_delete s kb kl).2 ∧
    WellFormed ((engine c).unqlite_begin s).2 ∧
    WellFormed ((engine c).unqlite_commit s).2 ∧
    WellFormed ((engine c).unqlite_rollback s).2 ∧
    WellFormed ((engine c).unqlite_kv_cursor_init s).2 ∧
    WellFormed ((engine c).unqlite_kv_cursor_release s cur).2 ∧
    WellFormed ((engine c).unqlite_kv_cursor_reset s cur).2 ∧
    WellFormed ((engine c).unqlite_kv_cursor_seek s cur kb kl dir).2 ∧
    WellFormed ((engine c).unqlite_kv_cursor_first_entry s cur).2 ∧
    WellFormed ((engine c).unqlite_kv_cursor_last_entry s cur).2 ∧
    WellFormed ((engine c).unqlite_kv_cursor_next_entry s cur).2 ∧
    WellFormed ((engine c).unqlite_kv_cursor_prev_entry s cur).2 ∧
    WellFormed ((engine c).unqlite_kv_cursor_key s cur out).2 ∧
    WellFormed ((engine c).unqlite_kv_cursor_data s cur out).2 := by
  have hj := openJournal_ascending s h
  have hpos : ∀ t, WellFormed (position c s cur t).2 := by
    intro t; cases t <;> exact h
  have hnone : ∀ old, (none : Option (List (Bytes × Bytes))) = some old → Ascending old :=
    fun old ho => by simp at ho
  refine ⟨h, ⟨h.1, hnone⟩, ?_, ⟨put_ascending _ _ _ h.1, hj⟩, ?_, ?_, ⟨h.1, hj⟩,
    ⟨h.1, hnone⟩, ?_, h, h, h, ?_, h, h, ?_, ?_, ?_, ?_⟩
  · simp only [engine]
    split
    · exact ⟨put_ascending _ _ _ h.1, hj⟩
    · exact ⟨put_ascending _ _ _ h.1, hj⟩
  · simp only [engine]
    split <;> exact h
  · simp only [engine]
    split
    · exact ⟨erase_ascending _ _ h.1, hj⟩
    · exact h
  · simp only [engine]
    split
    · next old ho => exact ⟨h.2 old ho, by simp⟩
    · exact h
  · simp only [engine]
    split
    · exact hpos _
    · split
      · exact hpos _
      · split <;> exact hpos _
  · simp only [engine]
    split
    · split <;> exact h
    · exact h
  · simp only [engine]
    split
    · split <;> exact h
    · exact h
  · simp only [engine]
    split <;> exact h
  · simp only [engine]
    split <;> exact h

end EngineModel

/-! ### The engine model: reads, writes and cursor moves -/

namespace EngineModel

open QUnQLite QUnQLiteCursor

theorem filledRecord_full (data : Bytes) :
    filledRecord (data.length : Int) (List.take (Int.toNat (data.length : Int)) data)
      = data := by
  simp [filledRecord]

theorem argBytes_ascii (s : QString) (h : ∀ ch ∈ s, ch.toNat < 0x80) :
    argBytes (toUtf8 s) (size s) = toUtf8 s := by
  obtain ⟨h1, h2⟩ := toUtf8_ascii s h
  simp [argBytes, h1, h2]

theorem lookup_put_self (k v : Bytes) :
    ∀ recs : List (Bytes × Bytes), lookup k (put k v recs) = some v
  | [] => by simp [put, lookup]
  | (k', v') :: rest => by
    simp only [put]
    split
    · simp [lookup]
    · split
      · simp [lookup]
      · next hk _ => simp [lookup, hk, lookup_put_self k v rest]

theorem lookup_erase_self (k : Bytes) (recs : List (Bytes × Bytes)) :
    lookup k (erase k recs) = none := by
  induction recs with
  | nil => rfl
  | cons r rest ih =>
    obtain ⟨k', v'⟩ := r
    by_cases h : k = k'
    · simp [erase, h]
      simpa [h] using ih
    · simp [erase, lookup, h, ih]

/-- In the engine model, fetching a key under which `v` is stored succeeds and returns
`v`. -/
theorem fetch_of_lookup (c : EngineConstants) (q : QUnQLitePrivate Store) (k : QString)
    (v : Bytes) (h : lookup (argBytes (toUtf8 k) (size k)) q.db.records = some v) :
    (fetch (engine c) c q k).1 = v ∧
    lastErrorCode (fetch (engine c) c q k).2 = ResultCode.Ok.value c := by
  have hfull := filledRecord_full v
  simp only [fetch, engine, h, readOut, setResultCode, isSuccess, ResultCode.value,
    beq_self_eq_true, if_true, lastErrorCode]
  exact ⟨hfull, trivial⟩

/-- In the engine model, `store(k, v)` followed by `fetch(k)` succeeds and returns the bytes
`store` handed to the engine, whatever was stored before. -/
theorem fetch_after_store (c : EngineConstants) (q : QUnQLitePrivate Store) (k v : QString) :
    (store (engine c) c q k v).1 = true ∧
    (fetch (engine c) c (store (engine c) c q k v).2 k).1 = argBytes (toUtf8 v) (size v) ∧
    lastErrorCode (fetch (engine c) c (store (engine c) c q k v).2 k).2
      = ResultCode.Ok.value c := by
  simp [store, fetch, QUnQLite.callEngine, engine, setResultCode, isSuccess, lastErrorCode,
    ResultCode.value, lookup_put_self, readOut, filledRecord]

/-- In the engine model, for values made of ASCII characters only, `store(k, v)` followed
by `fetch(k)` returns the UTF-8 bytes of `v`. -/
theorem fetch_after_store_ascii (c : EngineConstants) (q : QUnQLitePrivate Store)
    (k v : QString) (hv : ∀ ch ∈ v, ch.toNat < 0x80) :
    (fetch (engine c) c (store (engine c) c q k v).2 k).1 = toUtf8 v := by
  rw [(fetch_after_store c q k v).2.1, argBytes_ascii v hv]

/-- In the engine model, two appends under a key that had no record, followed by a fetch,
return the bytes handed to the engine by the first append followed by those of the
second. -/
theorem fetch_after_appends (c : EngineConstants) (q : QUnQLitePrivate Store)
    (k v1 v2 : QString)
    (h : lookup (argBytes (toUtf8 k) (size k)) q.db.records = none) :
    (fetch (engine c) c
      (append (engine c) c (append (engine c) c q k v1).2 k v2).2 k).1
      = argBytes (toUtf8 v1) (size v1) ++ argBytes (toUtf8 v2) (size v2) := by
  refine (fetch_of_lookup c _ k _ ?_).1
  simp [append, QUnQLite.callEngine, engine, h, setResultCode, lookup_put_self]

/-- In the engine model, fetching a key under which nothing is stored returns an empty byte
sequence and leaves the last-result-code NotFound. -/
theorem fetch_missing_key (c : EngineConstants) (q : QUnQLitePrivate Store) (k : QString)
    (hnf : c.UNQLITE_NOTFOUND ≠ c.UNQLITE_OK)
    (h : lookup (argBytes (toUtf8 k) (size k)) q.db.records = none) :
    (fetch (engine c) c q k).1 = [] ∧
    lastErrorCode (fetch (engine c) c q k).2 = ResultCode.NotFound.value c := by
  simp [fetch, engine, h, setResultCode, isSuccess, lastErrorCode, ResultCode.value, hnf]

theorem isValid_iff_current (c : EngineConstants) (q : QUnQLitePrivate Store) (d : Private) :
    isValid (engine c) q d = (current q.db d.cursor).isSome := by
  simp only [isValid, engine]
  cases current q.db d.cursor <;> simp

theorem key_on_record (c : EngineConstants) (q : QUnQLitePrivate Store) (d : Private)
    (r : Bytes × Bytes) (h : current q.db d.cursor = some r) :
    (key (engine c) c q d).1 = r.1 ∧ (key (engine c) c q d).2.db = q.db ∧
      lastErrorCode (key (engine c) c q d).2 = ResultCode.Ok.value c := by
  simp [key, engine, h, readOut, Private.isSuccess, Private.setResultCode, setResultCode,
    isSuccess, ResultCode.value, lastErrorCode, filledRecord]

theorem value_on_record (c : EngineConstants) (q : QUnQLitePrivate Store) (d : Private)
    (r : Bytes × Bytes) (h : current q.db d.cursor = some r) :
    (value (engine c) c q d).1 = r.2 ∧ (value (engine c) c q d).2.db = q.db ∧
      lastErrorCode (value (engine c) c q d).2 = ResultCode.Ok.value c := by
  simp [value, engine, h, readOut, Private.isSuccess, Private.setResultCode, setResultCode,
    isSuccess, ResultCode.value, lastErrorCode, filledRecord]

/-- In the engine model, on a cursor that is not valid `key()` and `value()` return an
empty byte sequence and leave the result code EndOfInput. -/
theorem key_value_at_eof (c : EngineConstants) (q : QUnQLitePrivate Store) (d : Private)
    (heof : c.UNQLITE_EOF ≠ c.UNQLITE_OK) (h : isValid (engine c) q d = false) :
    (key (engine c) c q d).1 = [] ∧
    lastErrorCode (key (engine c) c q d).2 = ResultCode.EndOfInput.value c ∧
    (value (engine c) c q d).1 = [] ∧
    lastErrorCode (value (engine c) c q d).2 = ResultCode.EndOfInput.value c := by
  rw [isValid_iff_current] at h
  have hc : current q.db d.cursor = none := by
    cases hcur : current q.db d.cursor with
    | none => rfl
    | some r => rw [hcur] at h; simp at h
  simp [key, value, engine, hc, Private.setResultCode, Private.isSuccess, setResultCode,
    isSuccess, lastErrorCode, ResultCode.value, heof]

/-- In the engine model, an exact-match seek for a key under which nothing is stored
returns false, leaves the cursor invalid and leaves the result code NotFound. -/
theorem seek_exact_absent (c : EngineConstants) (q : QUnQLitePrivate Store) (d : Private)
    (k : QString) (hnf : c.UNQLITE_NOTFOUND ≠ c.UNQLITE_OK)
    (h : indexOf (argBytes (toUtf8 k) (size k)) q.db.records = none) :
    (seek (engine c) c q d k SeekDirection.ExactMatch).1 = false ∧
    isValid (engine c) (seek (engine c) c q d k SeekDirection.ExactMatch).2 d = false ∧
    lastErrorCode (seek (engine c) c q d k SeekDirection.ExactMatch).2
      = ResultCode.NotFound.value c := by
  simp [seek, isValid, QUnQLiteCursor.callEngine, engine, h, position, setCursor, current,
    SeekDirection.value, Private.setResultCode, Private.isSuccess, setResultCode, isSuccess,
    lastErrorCode, ResultCode.value, hnf]

theorem next_on_record (c : EngineConstants) (q : QUnQLitePrivate Store) (d : Private)
    (i : Nat) (hc : q.db.cursors d.cursor = some i) (hi : i < q.db.records.length) :
    (next (engine c) c q d).2.db.records = q.db.records ∧
    (next (engine c) c q d).2.db.cursors d.cursor
      = (if i + 1 < q.db.records.length then some (i + 1) else none) := by
  simp [next, QUnQLiteCursor.callEngine, engine, hc, hi, Private.setResultCode, setResultCode, setCursor]

theorem nexts_on_records (c : EngineConstants) (d : Private) (k : Nat) :
    ∀ (q : QUnQLitePrivate Store) (i : Nat), q.db.cursors d.cursor = some i →
      i + k < q.db.records.length →
      (nexts c d k q).db.records = q.db.records ∧
      (nexts c d k q).db.cursors d.cursor = some (i + k) := by
  induction k with
  | zero => intro q i hc _; exact ⟨rfl, by simpa [nexts] using hc⟩
  | succ k ih =>
    intro q i hc hlt
    have hstep := next_on_record c q d i hc (by omega)
    have h1 : i + 1 < q.db.records.length := by omega
    rw [if_pos h1] at hstep
    have := ih (next (engine c) c q d).2 (i + 1) hstep.2 (by rw [hstep.1]; omega)
    simp only [nexts]
    refine ⟨this.1.trans hstep.1, ?_⟩
    rw [this.2]; congr 1; omega

theorem nexts_succ (c : EngineConstants) (d : Private) (k : Nat) :
    ∀ q : QUnQLitePrivate Store,
      nexts c d (k + 1) q = (next (engine c) c (nexts c d k q) d).2 := by
  induction k with
  | zero => intro q; rfl
  | succ k ih => intro q; simp only [nexts] at ih ⊢; exact ih _

end EngineModel

/-! ### Claim C1 -/

namespace QUnQLite

open QUnQLiteCursor

variable {σ : Type}

/-- C1: every boolean Handle operation (open, close, store, append, remove, begin, commit,
rollback) leaves the status its engine call returned in the Handle's last-result-code,
whatever that status is, and returns true exactly when that status is Ok. -/
theorem handle_operations_record_engine_status (E : Engine σ) (c : EngineConstants)
    (d : QUnQLitePrivate σ) (name key value : QString) (mode : OpenMode) :
    (lastErrorCode (openDb E c d name mode).2
        = (E.unqlite_open d.db (toUtf8 name) (mode.value c)).1 ∧
      ((openDb E c d name mode).1 = true ↔
        (E.unqlite_open d.db (toUtf8 name) (mode.value c)).1 = ResultCode.Ok.value c)) ∧
    (lastErrorCode (close E c d).2 = (E.unqlite_close d.db).1 ∧
      ((close E c d).1 = true ↔ (E.unqlite_close d.db).1 = ResultCode.Ok.value c)) ∧
    (lastErrorCode (store E c d key value).2
        = (E.unqlite_kv_store d.db (toUtf8 key) (size key) (toUtf8 value) (size value)).1 ∧
      ((store E c d key value).1 = true ↔
        (E.unqlite_kv_store d.db (toUtf8 key) (size key) (toUtf8 value) (size value)).1
          = ResultCode.Ok.value c)) ∧
    (lastErrorCode (append E c d key value).2
        = (E.unqlite_kv_append d.db (toUtf8 key) (size key) (toUtf8 value) (size value)).1 ∧
      ((append E c d key value).1 = true ↔
        (E.unqlite_kv_append d.db (toUtf8 key) (size key) (toUtf8 value) (size value)).1
          = ResultCode.Ok.value c)) ∧
    (lastErrorCode (remove E c d key).2
        = (E.unqlite_kv_delete d.db (toUtf8 key) (size key)).1 ∧
      ((remove E c d key).1 = true ↔
        (E.unqlite_kv_delete d.db (toUtf8 key) (size key)).1 = ResultCode.Ok.value c)) ∧
    (lastErrorCode (begin E c d).2 = (E.unqlite_begin d.db).1 ∧
      ((begin E c d).1 = true ↔ (E.unqlite_begin d.db).1 = ResultCode.Ok.value c)) ∧
    (lastErrorCode (commit E c d).2 = (E.unqlite_commit d.db).1 ∧
      ((commit E c d).1 = true ↔ (E.unqlite_commit d.db).1 = ResultCode.Ok.value c)) ∧
    (lastErrorCode (rollback E c d).2 = (E.unqlite_rollback d.db).1 ∧
      ((rollback E c d).1 = true ↔ (E.unqlite_rollback d.db).1 = ResultCode.Ok.value c)) :=
  ⟨lastErrorCode_callEngine c d _, lastErrorCode_callEngine c d _,
   lastErrorCode_callEngine c d _, lastErrorCode_callEngine c d _,
   lastErrorCode_callEngine c d _, lastErrorCode_callEngine c d _,
   lastErrorCode_callEngine c d _, lastErrorCode_callEngine c d _⟩

end QUnQLite

/-! ### Claim C2 -/

namespace EngineModel

open QUnQLite QUnQLiteCursor

/-- C2 (code defect, evaluated): storing the one-character value U+00E9 under "k" and
fetching "k" succeeds and returns the single byte 0xC3, while the UTF-8 bytes of the value
are 0xC3 0xA9: `store` passes the UTF-16 length of the value as its byte length. -/
theorem store_fetch_truncates_non_ascii_value :
    (store (engine unqliteHeader) unqliteHeader freshHandle ['k'] [Char.ofNat 233]).1 = true ∧
    (fetch (engine unqliteHeader) unqliteHeader
      (store (engine unqliteHeader) unqliteHeader freshHandle ['k'] [Char.ofNat 233]).2
      ['k']).1 = [195] ∧
    lastErrorCode (fetch (engine unqliteHeader) unqliteHeader
      (store (engine unqliteHeader) unqliteHeader freshHandle ['k'] [Char.ofNat 233]).2
      ['k']).2 = ResultCode.Ok.value unqliteHeader ∧
    toUtf8 [Char.ofNat 233] = [195, 169] := by
  decide

end EngineModel

/-! ### Claim C3 -/

namespace QUnQLiteCursor

open QUnQLite EngineModel

variable {σ : Type}

/-- C3 (as stated, refuted): on a handle whose last-result-code is Ok, a cursor seek for a
key that is not stored fails, and the owning Handle's lastErrorCode() is NotFound
afterwards, not what it was before. -/
theorem failing_seek_overwrites_handle_code :
    lastErrorCode (construct (engine unqliteHeader) freshHandle).2
        = ResultCode.Ok.value unqliteHeader ∧
    (seek (engine unqliteHeader) unqliteHeader
        (construct (engine unqliteHeader) freshHandle).2
        (construct (engine unqliteHeader) freshHandle).1 ['x'] SeekDirection.ExactMatch).1
        = false ∧
    lastErrorCode (seek (engine unqliteHeader) unqliteHeader
        (construct (engine unqliteHeader) freshHandle).2
        (construct (engine unqliteHeader) freshHandle).1 ['x'] SeekDirection.ExactMatch).2
        = ResultCode.NotFound.value unqliteHeader ∧
    ResultCode.NotFound.value unqliteHeader ≠ ResultCode.Ok.value unqliteHeader := by
  decide

/-- C3 (amended): a cursor has no result code of its own; every Cursor operation
(construction, reset, seek, first, last, next, previous, key, value, destruction) stores
the status of the engine call it made (for key and value: of the last call made) in the
owning Handle's last-result-code, whether the call failed or succeeded. -/
theorem cursor_operations_write_handle_code (E : Engine σ) (c : EngineConstants)
    (q : QUnQLitePrivate σ) (d : Private) (k : QString) (sd : SeekDirection) :
    lastErrorCode (construct E q).2 = (E.unqlite_kv_cursor_init q.db).1.1 ∧
    lastErrorCode (reset E c q d).2 = (E.unqlite_kv_cursor_reset q.db d.cursor).1 ∧
    lastErrorCode (seek E c q d k sd).2
      = (E.unqlite_kv_cursor_seek q.db d.cursor (toUtf8 k) (size k) (sd.value c)).1 ∧
    lastErrorCode (first E c q d).2 = (E.unqlite_kv_cursor_first_entry q.db d.cursor).1 ∧
    lastErrorCode (last E c q d).2 = (E.unqlite_kv_cursor_last_entry q.db d.cursor).1 ∧
    lastErrorCode (next E c q d).2 = (E.unqlite_kv_cursor_next_entry q.db d.cursor).1 ∧
    lastErrorCode (previous E c q d).2 = (E.unqlite_kv_cursor_prev_entry q.db d.cursor).1 ∧
    lastErrorCode (key E c q d).2
      = (if (E.unqlite_kv_cursor_key q.db d.cursor none).1.rc = ResultCode.Ok.value c then
          (E.unqlite_kv_cursor_key (E.unqlite_kv_cursor_key q.db d.cursor none).2 d.cursor
            (some (E.unqlite_kv_cursor_key q.db d.cursor none).1.length)).1.rc
        else (E.unqlite_kv_cursor_key q.db d.cursor none).1.rc) ∧
    lastErrorCode (value E c q d).2
      = (if (E.unqlite_kv_cursor_data q.db d.cursor none).1.rc = ResultCode.Ok.value c then
          (E.unqlite_kv_cursor_data (E.unqlite_kv_cursor_data q.db d.cursor none).2 d.cursor
            (some (E.unqlite_kv_cursor_data q.db d.cursor none).1.length)).1.rc
        else (E.unqlite_kv_cursor_data q.db d.cursor none).1.rc) ∧
    lastErrorCode (destruct E q d) = (E.unqlite_kv_cursor_release q.db d.cursor).1 := by
  refine ⟨rfl, (lastErrorCode_cursor_callEngine c q _).1,
    (lastErrorCode_cursor_callEngine c q _).1, (lastErrorCode_cursor_callEngine c q _).1,
    (lastErrorCode_cursor_callEngine c q _).1, (lastErrorCode_cursor_callEngine c q _).1,
    (lastErrorCode_cursor_callEngine c q _).1, ?_, ?_, rfl⟩
  · simp only [key, Private.isSuccess, Private.setResultCode, setResultCode, isSuccess,
      lastErrorCode, beq_iff_eq]
    split <;> rfl
  · simp only [value, Private.isSuccess, Private.setResultCode, setResultCode, isSuccess,
      lastErrorCode, beq_iff_eq]
    split <;> rfl

end QUnQLiteCursor

/-! ### Claim C4 -/

namespace EngineModel

open QUnQLite QUnQLiteCursor

/-- C4 (code defect, evaluated): on an empty store, appending the value U+00E9 twice under
"k" and fetching "k" returns the two bytes 0xC3 0xC3, while the concatenation of the two
values is 0xC3 0xA9 0xC3 0xA9: `append` passes the UTF-16 length as the byte length. -/
theorem append_append_fetch_truncates_non_ascii_values :
    (append (engine unqliteHeader) unqliteHeader freshHandle ['k'] [Char.ofNat 233]).1
      = true ∧
    (append (engine unqliteHeader) unqliteHeader
      (append (engine unqliteHeader) unqliteHeader freshHandle ['k'] [Char.ofNat 233]).2
      ['k'] [Char.ofNat 233]).1 = true ∧
    (fetch (engine unqliteHeader) unqliteHeader
      (append (engine unqliteHeader) unqliteHeader
        (append (engine unqliteHeader) unqliteHeader freshHandle ['k'] [Char.ofNat 233]).2
        ['k'] [Char.ofNat 233]).2 ['k']).1 = [195, 195] ∧
    toUtf8 [Char.ofNat 233] ++ toUtf8 [Char.ofNat 233] = [195, 169, 195, 169] := by
  decide

end EngineModel

/-! ### Claim C5 -/

namespace EngineModel

open QUnQLite QUnQLiteCursor

/-- C5 (code defect, evaluated): with "abc" stored under "k" and an engine whose length
query succeeds and whose fill call fails with an I/O error, `fetch` leaves the
last-result-code at IoError, which is not Ok, and returns three zero bytes, not an empty
byte sequence. -/
theorem fetch_returns_zero_bytes_when_fill_fails :
    (fetch (failingFill unqliteHeader) unqliteHeader kAbcHandle ['k']).1 = [0, 0, 0] ∧
    lastErrorCode (fetch (failingFill unqliteHeader) unqliteHeader kAbcHandle ['k']).2
      = ResultCode.IoError.value unqliteHeader ∧
    ResultCode.IoError.value unqliteHeader ≠ ResultCode.Ok.value unqliteHeader := by
  decide

end EngineModel

/-! ### Claim C6 -/

namespace EngineModel

open QUnQLite QUnQLiteCursor

/-- Removal against the engine key: in the engine model, when a record is stored under the
first `size k` bytes of the UTF-8 encoding of `k` (in particular after `store(k, v)`), `remove(k)` returns true and a following `fetch(k)`
returns an empty byte sequence and leaves the last-result-code NotFound; when none is
stored, `remove(k)` returns false and leaves the last-result-code NotFound. -/
theorem remove_then_fetch_not_found (c : EngineConstants) (q : QUnQLitePrivate Store)
    (k : QString) (hnf : c.UNQLITE_NOTFOUND ≠ c.UNQLITE_OK) :
    ((lookup (argBytes (toUtf8 k) (size k)) q.db.records).isSome = true →
      (remove (engine c) c q k).1 = true ∧
      (fetch (engine c) c (remove (engine c) c q k).2 k).1 = [] ∧
      lastErrorCode (fetch (engine c) c (remove (engine c) c q k).2 k).2
        = ResultCode.NotFound.value c) ∧
    (∀ v : QString,
      (remove (engine c) c (store (engine c) c q k v).2 k).1 = true ∧
      (fetch (engine c) c (remove (engine c) c (store (engine c) c q k v).2 k).2 k).1 = [] ∧
      lastErrorCode
          (fetch (engine c) c (remove (engine c) c (store (engine c) c q k v).2 k).2 k).2
        = ResultCode.NotFound.value c) ∧
    (lookup (argBytes (toUtf8 k) (size k)) q.db.records = none →
      (remove (engine c) c q k).1 = false ∧
      lastErrorCode (remove (engine c) c q k).2 = ResultCode.NotFound.value c) := by
  have hstored : ∀ q' : QUnQLitePrivate Store,
      (lookup (argBytes (toUtf8 k) (size k)) q'.db.records).isSome = true →
      (remove (engine c) c q' k).1 = true ∧
      (fetch (engine c) c (remove (engine c) c q' k).2 k).1 = [] ∧
      lastErrorCode (fetch (engine c) c (remove (engine c) c q' k).2 k).2
        = ResultCode.NotFound.value c := by
    intro q' hsome
    obtain ⟨v, hv⟩ := Option.isSome_iff_exists.mp hsome
    simp [remove, fetch, QUnQLite.callEngine, engine, hv, setResultCode, isSuccess,
      lastErrorCode, ResultCode.value, lookup_erase_self, hnf]
  refine ⟨hstored q, fun v => hstored _ ?_, ?_⟩
  · simp [store, QUnQLite.callEngine, engine, setResultCode, lookup_put_self]
  · intro hnone
    simp [remove, QUnQLite.callEngine, engine, hnone, setResultCode, isSuccess,
      lastErrorCode, ResultCode.value, hnf]

/-- Removal against the engine key, on an instance: in the example store, "b" is stored, removing it succeeds and a fetch
then finds nothing; "z" is not stored and removing it fails with NotFound. -/
theorem remove_then_fetch_not_found_witness :
    unqliteHeader.UNQLITE_NOTFOUND ≠ unqliteHeader.UNQLITE_OK ∧
    ((remove (engine unqliteHeader) unqliteHeader abcHandle ['b']).1 = true ∧
      (fetch (engine unqliteHeader) unqliteHeader
        (remove (engine unqliteHeader) unqliteHeader abcHandle ['b']).2 ['b']).1 = [] ∧
      lastErrorCode (fetch (engine unqliteHeader) unqliteHeader
        (remove (engine unqliteHeader) unqliteHeader abcHandle ['b']).2 ['b']).2
        = ResultCode.NotFound.value unqliteHeader) ∧
    ((remove (engine unqliteHeader) unqliteHeader abcHandle ['z']).1 = false ∧
      lastErrorCode (remove (engine unqliteHeader) unqliteHeader abcHandle ['z']).2
        = ResultCode.NotFound.value unqliteHeader) :=
  ⟨by decide,
    (remove_then_fetch_not_found unqliteHeader abcHandle ['b'] (by decide)).1 (by decide),
    (remove_then_fetch_not_found unqliteHeader abcHandle ['z'] (by decide)).2.2 (by decide)⟩

end EngineModel

namespace EngineModel

open QUnQLite QUnQLiteCursor

/-- C6 (code defect, evaluated): after `store("éa", "1")` on an empty store, the key "éz"
is not stored (the two keys differ, their UTF-8 encodings differ, and no record lies under
the UTF-8 bytes of "éz"); yet `remove("éz")` returns true with last-result-code Ok, and
afterwards `fetch("éa")` returns an empty byte sequence with NotFound: `store` and `remove`
pass the UTF-16 length 2 as the byte length, so both keys become the two bytes 0xC3 0xA9
and `remove` deletes the record of the other key. -/
theorem remove_of_unstored_key_deletes_other_record :
    ([Char.ofNat 233, 'a'] : QString) ≠ [Char.ofNat 233, 'z'] ∧
    toUtf8 [Char.ofNat 233, 'a'] = [195, 169, 97] ∧
    toUtf8 [Char.ofNat 233, 'z'] = [195, 169, 122] ∧
    (store (engine unqliteHeader) unqliteHeader freshHandle
      [Char.ofNat 233, 'a'] ['1']).2.db.records = [([195, 169], [49])] ∧
    lookup (toUtf8 [Char.ofNat 233, 'z'])
      (store (engine unqliteHeader) unqliteHeader freshHandle
        [Char.ofNat 233, 'a'] ['1']).2.db.records = none ∧
    (remove (engine unqliteHeader) unqliteHeader
      (store (engine unqliteHeader) unqliteHeader freshHandle [Char.ofNat 233, 'a'] ['1']).2
      [Char.ofNat 233, 'z']).1 = true ∧
    lastErrorCode (remove (engine unqliteHeader) unqliteHeader
      (store (engine unqliteHeader) unqliteHeader freshHandle [Char.ofNat 233, 'a'] ['1']).2
      [Char.ofNat 233, 'z']).2 = ResultCode.Ok.value unqliteHeader ∧
    (fetch (engine unqliteHeader) unqliteHeader
      (remove (engine unqliteHeader) unqliteHeader
        (store (engine unqliteHeader) unqliteHeader freshHandle
          [Char.ofNat 233, 'a'] ['1']).2
        [Char.ofNat 233, 'z']).2 [Char.ofNat 233, 'a']).1 = [] ∧
    lastErrorCode (fetch (engine unqliteHeader) unqliteHeader
      (remove (engine unqliteHeader) unqliteHeader
        (store (engine unqliteHeader) unqliteHeader freshHandle
          [Char.ofNat 233, 'a'] ['1']).2
        [Char.ofNat 233, 'z']).2 [Char.ofNat 233, 'a']).2
      = ResultCode.NotFound.value unqliteHeader ∧
    ResultCode.NotFound.value unqliteHeader ≠ ResultCode.Ok.value unqliteHeader := by
  decide

end EngineModel

/-! ### Claim C7 -/

namespace EngineModel

open QUnQLite QUnQLiteCursor

/-- C7 (code defect, evaluated): after storing a record under the one-character key U+00E9,
an exact-match seek for that key succeeds and leaves the cursor valid, but `key()` returns
the single byte 0xC3, while the UTF-8 bytes of the key are 0xC3 0xA9: `store` and `seek`
pass the UTF-16 length of the key as its byte length. -/
theorem seek_exact_key_truncated_for_non_ascii :
    (seek (engine unqliteHeader) unqliteHeader
      (cursor (engine unqliteHeader)
        (store (engine unqliteHeader) unqliteHeader freshHandle [Char.ofNat 233] ['v']).2).2
      (cursor (engine unqliteHeader)
        (store (engine unqliteHeader) unqliteHeader freshHandle [Char.ofNat 233] ['v']).2).1
      [Char.ofNat 233] SeekDirection.ExactMatch).1 = true ∧
    isValid (engine unqliteHeader)
      (seek (engine unqliteHeader) unqliteHeader
        (cursor (engine unqliteHeader)
          (store (engine unqliteHeader) unqliteHeader freshHandle [Char.ofNat 233] ['v']).2).2
        (cursor (engine unqliteHeader)
          (store (engine unqliteHeader) unqliteHeader freshHandle [Char.ofNat 233] ['v']).2).1
        [Char.ofNat 233] SeekDirection.ExactMatch).2
      (cursor (engine unqliteHeader)
        (store (engine unqliteHeader) unqliteHeader freshHandle [Char.ofNat 233] ['v']).2).1
      = true ∧
    (key (engine unqliteHeader) unqliteHeader
      (seek (engine unqliteHeader) unqliteHeader
        (cursor (engine unqliteHeader)
          (store (engine unqliteHeader) unqliteHeader freshHandle [Char.ofNat 233] ['v']).2).2
        (cursor (engine unqliteHeader)
          (store (engine unqliteHeader) unqliteHeader freshHandle [Char.ofNat 233] ['v']).2).1
        [Char.ofNat 233] SeekDirection.ExactMatch).2
      (cursor (engine unqliteHeader)
        (store (engine unqliteHeader) unqliteHeader freshHandle [Char.ofNat 233] ['v']).2).1).1
      = [195] ∧
    toUtf8 [Char.ofNat 233] = [195, 169] := by
  decide

end EngineModel

/-! ### Claim C8 -/

namespace EngineModel

open QUnQLite QUnQLiteCursor

/-- C8: on a store of n >= 1 records in ascending key order, `first()` followed by i calls
of `next()` (i < n) leaves the cursor valid on the record of rank i, `key()` returning its
key and a following `value()` its value, every later record having a larger key; after n
calls of `next()` the cursor is no longer valid. -/
theorem forward_traversal_in_key_order (c : EngineConstants) (s : Store) (rc : Int)
    (d : Private) (hs : Ascending s.records) (hn : 1 ≤ s.records.length) :
    (∀ (i : Nat) (hi : i < s.records.length),
      isValid (engine c)
        (nexts c d i (first (engine c) c { resultCode := rc, db := s } d).2) d = true ∧
      (key (engine c) c
        (nexts c d i (first (engine c) c { resultCode := rc, db := s } d).2) d).1
        = (s.records.get ⟨i, hi⟩).1 ∧
      (value (engine c) c
        (key (engine c) c
          (nexts c d i (first (engine c) c { resultCode := rc, db := s } d).2) d).2 d).1
        = (s.records.get ⟨i, hi⟩).2 ∧
      (∀ (j : Nat) (hj : j < s.records.length), i < j →
        keyLt (s.records.get ⟨i, hi⟩).1 (s.records.get ⟨j, hj⟩).1 = true)) ∧
    isValid (engine c)
      (nexts c d s.records.length (first (engine c) c { resultCode := rc, db := s } d).2) d
      = false := by
  have hne : s.records ≠ [] := by
    intro h; rw [h] at hn; simp at hn
  have hf : (first (engine c) c { resultCode := rc, db := s } d).2.db.records = s.records ∧
      (first (engine c) c { resultCode := rc, db := s } d).2.db.cursors d.cursor = some 0 := by
    simp [first, QUnQLiteCursor.callEngine, engine, Private.setResultCode, setResultCode, setCursor, hne]
  have hat : ∀ i, i < s.records.length →
      (nexts c d i (first (engine c) c { resultCode := rc, db := s } d).2).db.records
        = s.records ∧
      (nexts c d i (first (engine c) c { resultCode := rc, db := s } d).2).db.cursors d.cursor
        = some i := by
    intro i hi
    have := nexts_on_records c d i _ 0 hf.2 (by rw [hf.1]; omega)
    exact ⟨this.1.trans hf.1, by simpa using this.2⟩
  refine ⟨fun i hi => ?_, ?_⟩
  · obtain ⟨hr, hc⟩ := hat i hi
    have hcur : current (nexts c d i (first (engine c) c { resultCode := rc, db := s } d).2).db
        d.cursor = some (s.records.get ⟨i, hi⟩) := by
      simp [current, hc, hr, List.get?_eq_get hi]
    have hk := key_on_record c _ d _ hcur
    have hv := value_on_record c
      (key (engine c) c
        (nexts c d i (first (engine c) c { resultCode := rc, db := s } d).2) d).2 d
      (s.records.get ⟨i, hi⟩) (by rw [hk.2.1]; exact hcur)
    refine ⟨by rw [isValid_iff_current, hcur]; rfl, hk.1, hv.1, fun j hj hij => ?_⟩
    exact List.pairwise_iff_get.mp hs ⟨i, hi⟩ ⟨j, hj⟩ hij
  · obtain ⟨n, hn'⟩ : ∃ n, s.records.length = n + 1 := ⟨s.records.length - 1, by omega⟩
    obtain ⟨hr, hc⟩ := hat n (by omega)
    rw [hn', nexts_succ, isValid_iff_current]
    have hstep := next_on_record c _ d n hc (by rw [hr]; omega)
    have hno : ¬ (n + 1 < s.records.length) := by omega
    rw [hr, if_neg hno] at hstep
    simp [current, hstep.2]

/-- C8 (the example of the specification): after storing "1", "2", "3" under "a", "b", "c",
the records are in ascending key order, `first()` then one `next()` leaves `key()` equal
to "b", and the third `next()` leaves the cursor invalid. -/
theorem forward_traversal_in_key_order_witness :
    Ascending abcHandle.db.records ∧ 1 ≤ abcHandle.db.records.length ∧
    (key (engine unqliteHeader) unqliteHeader
      (nexts unqliteHeader { cursor := 0 } 1
        (first (engine unqliteHeader) unqliteHeader
          { resultCode := 0, db := abcHandle.db } { cursor := 0 }).2) { cursor := 0 }).1
      = [98] ∧
    isValid (engine unqliteHeader)
      (nexts unqliteHeader { cursor := 0 } 3
        (first (engine unqliteHeader) unqliteHeader
          { resultCode := 0, db := abcHandle.db } { cursor := 0 }).2) { cursor := 0 }
      = false :=
  ⟨by decide, by decide,
    ((forward_traversal_in_key_order unqliteHeader abcHandle.db 0 { cursor := 0 }
      (by decide) (by decide)).1 1 (by decide)).2.1,
    (forward_traversal_in_key_order unqliteHeader abcHandle.db 0 { cursor := 0 }
      (by decide) (by decide)).2⟩

end EngineModel

/-! ### Claim C9 -/

namespace QUnQLite

open QUnQLiteCursor

variable {σ : Type}

/-- C9: every member of ResultCode, OpenMode and SeekDirection has the value of the engine
constant it is initialised from (ReadOnlyWithMMap the bitwise OR of the read-only and mmap
flags); when the engine's status constants are pairwise distinct, distinct ResultCode
members have distinct values; and a status stored by `setResultCode` is read back
unchanged by `lastErrorCode`. -/
theorem enumeration_fidelity (c : EngineConstants) (d : QUnQLitePrivate σ) (rc : Int)
    (hd : c.statusCodes.Nodup) :
    ResultCode.all.map (ResultCode.value c) = c.statusCodes ∧
    (∀ r : ResultCode, r ∈ ResultCode.all) ∧
    OpenMode.Create.value c = c.UNQLITE_OPEN_CREATE ∧
    OpenMode.ReadWrite.value c = c.UNQLITE_OPEN_READWRITE ∧
    OpenMode.ReadOnly.value c = c.UNQLITE_OPEN_READONLY ∧
    OpenMode.ReadOnlyWithMMap.value c = c.UNQLITE_OPEN_READONLY ||| c.UNQLITE_OPEN_MMAP ∧
    SeekDirection.ExactMatch.value c = c.UNQLITE_CURSOR_MATCH_EXACT ∧
    SeekDirection.Le.value c = c.UNQLITE_CURSOR_MATCH_LE ∧
    SeekDirection.Ge.value c = c.UNQLITE_CURSOR_MATCH_GE ∧
    (∀ a b : ResultCode, a ≠ b → a.value c ≠ b.value c) ∧
    lastErrorCode (setResultCode d rc) = rc := by
  have hall : ∀ r : ResultCode, r ∈ ResultCode.all := by
    intro r; cases r <;> decide
  refine ⟨rfl, hall, rfl, rfl, rfl, rfl, rfl, rfl, rfl, ?_, rfl⟩
  intro a b hab hv
  have hmap : (ResultCode.all.map (ResultCode.value c)).Nodup := hd
  exact hab (List.inj_on_of_nodup_map hmap (hall a) (hall b) hv)

/-- C9 (instance): the status constants of the published engine header are pairwise
distinct, so distinct ResultCode members have distinct values there. -/
theorem enumeration_fidelity_witness :
    EngineModel.unqliteHeader.statusCodes.Nodup ∧
    (∀ a b : ResultCode, a ≠ b →
      a.value EngineModel.unqliteHeader ≠ b.value EngineModel.unqliteHeader) ∧
    lastErrorCode (setResultCode EngineModel.freshHandle (-6)) = -6 :=
  ⟨by decide,
    (enumeration_fidelity EngineModel.unqliteHeader EngineModel.freshHandle (-6)
      (by decide)).2.2.2.2.2.2.2.2.2.1,
    (enumeration_fidelity EngineModel.unqliteHeader EngineModel.freshHandle (-6)
      (by decide)).2.2.2.2.2.2.2.2.2.2⟩

end QUnQLite

/-! ### Claim C10 -/

namespace EngineModel

open QUnQLite QUnQLiteCursor

/-- C10 (code defect, evaluated): with "abc" stored under "k", a cursor on that record and
an engine whose length queries succeed and whose fill calls fail with an I/O error, `key()`
and `value()` leave the result code at IoError, which is not Ok, and return one and three
zero bytes, not an empty byte sequence. -/
theorem key_value_return_zero_bytes_when_fill_fails :
    isValid (failingFill unqliteHeader) onRecordK (cursor (engine unqliteHeader) kAbcHandle).1
      = true ∧
    (key (failingFill unqliteHeader) unqliteHeader onRecordK
      (cursor (engine unqliteHeader) kAbcHandle).1).1 = [0] ∧
    lastErrorCode (key (failingFill unqliteHeader) unqliteHeader onRecordK
      (cursor (engine unqliteHeader) kAbcHandle).1).2
      = ResultCode.IoError.value unqliteHeader ∧
    (value (failingFill unqliteHeader) unqliteHeader onRecordK
      (cursor (engine unqliteHeader) kAbcHandle).1).1 = [0, 0, 0] ∧
    lastErrorCode (value (failingFill unqliteHeader) unqliteHeader onRecordK
      (cursor (engine unqliteHeader) kAbcHandle).1).2
      = ResultCode.IoError.value unqliteHeader ∧
    ResultCode.IoError.value unqliteHeader ≠ ResultCode.Ok.value unqliteHeader := by
  decide

end EngineModel

/-! ### The increment operators -/

namespace QUnQLiteCursor

open QUnQLite EngineModel

variable {σ : Type}

/-- The free-function increment is `next()`; the member increment hands the state back
unchanged. -/
theorem increment_operators (E : Engine σ) (c : EngineConstants) (q : QUnQLitePrivate σ)
    (d : Private) :
    incrementFree E c q d = (next E c q d).2 ∧ incrementMember E c q d = q :=
  ⟨rfl, rfl⟩

end QUnQLiteCursor

/-! ### The engine calls of each operation -/

namespace QUnQLite

open QUnQLiteCursor

variable {σ : Type}

/-- A boolean operation run on the logging engine appends exactly the engine call written
in its body, leaves that call's status in the last-result-code and returns true exactly
when the status is Ok. -/
theorem boolOp_traced (E : Engine σ) (c : EngineConstants) (d : Private) (op : BoolOp)
    (q : QUnQLitePrivate (σ × List EngineCall)) :
    (op.run (traced E) c d q).2.db.2 = q.db.2 ++ [op.engineCall c d] ∧
    lastErrorCode (op.run (traced E) c d q).2 = E.status q.db.1 (op.engineCall c d) ∧
    ((op.run (traced E) c d q).1 = true ↔
      E.status q.db.1 (op.engineCall c d) = ResultCode.Ok.value c) := by
  cases op <;>
    simp [BoolOp.run, BoolOp.engineCall, Engine.status, traced, logged, openDb, close, append,
      store, remove, begin, commit, rollback, reset, seek, first, last, next, previous,
      QUnQLite.callEngine, QUnQLiteCursor.callEngine, Private.setResultCode,
      Private.isSuccess, setResultCode, isSuccess, lastErrorCode]

/-- The engine calls of `fetch` on the logging engine: the length query alone when it
fails, the length query and one fill call with the reported length when it succeeds. -/
theorem fetch_traced (E : Engine σ) (c : EngineConstants) (k : QString)
    (q : QUnQLitePrivate (σ × List EngineCall)) :
    ((E.unqlite_kv_fetch q.db.1 (toUtf8 k) (size k) none).1.rc ≠ ResultCode.Ok.value c →
      (fetch (traced E) c q k).2.db.2
        = q.db.2 ++ [.unqlite_kv_fetch (toUtf8 k) (size k) none] ∧
      (fetch (traced E) c q k).1 = [] ∧
      lastErrorCode (fetch (traced E) c q k).2
        = (E.unqlite_kv_fetch q.db.1 (toUtf8 k) (size k) none).1.rc) ∧
    ((E.unqlite_kv_fetch q.db.1 (toUtf8 k) (size k) none).1.rc = ResultCode.Ok.value c →
      (fetch (traced E) c q k).2.db.2
        = q.db.2 ++ [.unqlite_kv_fetch (toUtf8 k) (size k) none,
            .unqlite_kv_fetch (toUtf8 k) (size k)
              (some (E.unqlite_kv_fetch q.db.1 (toUtf8 k) (size k) none).1.length)] ∧
      lastErrorCode (fetch (traced E) c q k).2
        = (E.unqlite_kv_fetch (E.unqlite_kv_fetch q.db.1 (toUtf8 k) (size k) none).2
            (toUtf8 k) (size k)
            (some (E.unqlite_kv_fetch q.db.1 (toUtf8 k) (size k) none).1.length)).1.rc) := by
  constructor <;> intro h <;>
    simp [fetch, traced, logged, setResultCode, isSuccess, lastErrorCode, h]

/-- The engine calls of `key` on the logging engine. -/
theorem key_traced (E : Engine σ) (c : EngineConstants) (d : Private)
    (q : QUnQLitePrivate (σ × List EngineCall)) :
    ((E.unqlite_kv_cursor_key q.db.1 d.cursor none).1.rc ≠ ResultCode.Ok.value c →
      (key (traced E) c q d).2.db.2 = q.db.2 ++ [.unqlite_kv_cursor_key d.cursor none] ∧
      (key (traced E) c q d).1 = [] ∧
      lastErrorCode (key (traced E) c q d).2
        = (E.unqlite_kv_cursor_key q.db.1 d.cursor none).1.rc) ∧
    ((E.unqlite_kv_cursor_key q.db.1 d.cursor none).1.rc = ResultCode.Ok.value c →
      (key (traced E) c q d).2.db.2
        = q.db.2 ++ [.unqlite_kv_cursor_key d.cursor none,
            .unqlite_kv_cursor_key d.cursor
              (some (E.unqlite_kv_cursor_key q.db.1 d.cursor none).1.length)] ∧
      lastErrorCode (key (traced E) c q d).2
        = (E.unqlite_kv_cursor_key (E.unqlite_kv_cursor_key q.db.1 d.cursor none).2 d.cursor
            (some (E.unqlite_kv_cursor_key q.db.1 d.cursor none).1.length)).1.rc) := by
  constructor <;> intro h <;>
    simp [key, traced, logged, Private.setResultCode, Private.isSuccess, setResultCode,
      isSuccess, lastErrorCode, h]

/-- The engine calls of `value` on the logging engine. -/
theorem value_traced (E : Engine σ) (c : EngineConstants) (d : Private)
    (q : QUnQLitePrivate (σ × List EngineCall)) :
    ((E.unqlite_kv_cursor_data q.db.1 d.cursor none).1.rc ≠ ResultCode.Ok.value c →
      (value (traced E) c q d).2.db.2 = q.db.2 ++ [.unqlite_kv_cursor_data d.cursor none] ∧
      (value (traced E) c q d).1 = [] ∧
      lastErrorCode (value (traced E) c q d).2
        = (E.unqlite_kv_cursor_data q.db.1 d.cursor none).1.rc) ∧
    ((E.unqlite_kv_cursor_data q.db.1 d.cursor none).1.rc = ResultCode.Ok.value c →
      (value (traced E) c q d).2.db.2
        = q.db.2 ++ [.unqlite_kv_cursor_data d.cursor none,
            .unqlite_kv_cursor_data d.cursor
              (some (E.unqlite_kv_cursor_data q.db.1 d.cursor none).1.length)] ∧
      lastErrorCode (value (traced E) c q d).2
        = (E.unqlite_kv_cursor_data (E.unqlite_kv_cursor_data q.db.1 d.cursor none).2 d.cursor
            (some (E.unqlite_kv_cursor_data q.db.1 d.cursor none).1.length)).1.rc) := by
  constructor <;> intro h <;>
    simp [value, traced, logged, Private.setResultCode, Private.isSuccess, setResultCode,
      isSuccess, lastErrorCode, h]

/-- The engine state a boolean operation leaves is the one its engine call left. -/
theorem boolOp_db (E : Engine σ) (c : EngineConstants) (d : Private) (op : BoolOp)
    (q : QUnQLitePrivate σ) :
    (op.run E c d q).2.db = E.stateAfterCall q.db (op.engineCall c d) := by
  cases op <;> rfl

end QUnQLite

/-! ### Sequences of operations -/

namespace QUnQLite

open QUnQLiteCursor

variable {σ : Type}

theorem stateAfter_append (E : Engine σ) (c : EngineConstants) (d : Private)
    (ops1 ops2 : List Op) :
    ∀ q : QUnQLitePrivate σ,
      stateAfter E c d (ops1 ++ ops2) q = stateAfter E c d ops2 (stateAfter E c d ops1 q) := by
  induction ops1 with
  | nil => intro q; rfl
  | cons op rest ih => intro q; simp only [List.cons_append, stateAfter]; exact ih _

theorem runOps_append (E : Engine σ) (c : EngineConstants) (d : Private)
    (ops1 ops2 : List Op) :
    ∀ q : QUnQLitePrivate σ,
      runOps E c d (ops1 ++ ops2) q
        = runOps E c d ops1 q ++ runOps E c d ops2 (stateAfter E c d ops1 q) := by
  induction ops1 with
  | nil => intro q; rfl
  | cons op rest ih =>
    intro q
    show _ :: runOps E c d (rest ++ ops2) _ = _ :: (runOps E c d rest _ ++ _)
    rw [ih]
    rfl

end QUnQLite

/-! ### UTF-16 length against UTF-8 length -/

namespace QUnQLite

open QUnQLiteCursor

variable {σ : Type}

theorem utf16Units_le_utf8Bytes (ch : Char) :
    utf16Units ch ≤ (utf8Bytes ch).length ∧
    (utf16Units ch = (utf8Bytes ch).length ↔ ch.toNat < 0x80) := by
  unfold utf16Units utf8Bytes
  by_cases h1 : ch.toNat < 0x80
  · have h2 : ch.toNat < 0x10000 := by omega
    simp [h1, h2]
  · by_cases h2 : ch.toNat < 0x800
    · have h3 : ch.toNat < 0x10000 := by omega
      simp [h1, h2, h3]
    · by_cases h3 : ch.toNat < 0x10000
      · simp [h1, h2, h3]
      · simp [h1, h2, h3]

theorem size_nonneg (s : QString) : 0 ≤ size s := by
  induction s with
  | nil => simp [size]
  | cons ch rest ih => simp only [size]; omega

theorem size_le_utf8_length (s : QString) :
    size s ≤ ((toUtf8 s).length : Int) ∧
    (size s = ((toUtf8 s).length : Int) ↔ ∀ ch ∈ s, ch.toNat < 0x80) := by
  induction s with
  | nil => simp [size, toUtf8]
  | cons ch rest ih =>
    obtain ⟨hle, heq⟩ := utf16Units_le_utf8Bytes ch
    obtain ⟨ihle, iheq⟩ := ih
    simp only [size, toUtf8, List.length_append, Nat.cast_add, List.mem_cons, forall_eq_or_imp]
    refine ⟨by omega, ?_⟩
    rw [← heq, ← iheq]
    constructor
    · intro h; constructor <;> omega
    · intro h; omega

/-- The bytes an engine reads from the UTF-8 buffer of `s` given with the length
`size s`: an initial part of the encoding, the whole of it exactly when every character
of `s` is ASCII. -/
theorem take_size_utf8 (s : QString) :
    (toUtf8 s).take (size s).toNat <+: toUtf8 s ∧
    ((toUtf8 s).take (size s).toNat).length = (size s).toNat ∧
    ((toUtf8 s).take (size s).toNat = toUtf8 s ↔ ∀ ch ∈ s, ch.toNat < 0x80) := by
  obtain ⟨hle, heq⟩ := size_le_utf8_length s
  have h0 := size_nonneg s
  have hlen : ((toUtf8 s).take (size s).toNat).length = (size s).toNat := by
    rw [List.length_take]; omega
  refine ⟨List.take_prefix _ _, hlen, ?_⟩
  rw [← heq]
  constructor
  · intro h
    have := congrArg List.length h
    rw [hlen] at this
    omega
  · intro h
    apply List.take_of_length_le
    omega

theorem char_toNat_injective (a b : Char) (h : a.toNat = b.toNat) : a = b :=
  Char.ext (UInt32.ext h)

theorem toUtf8_injective_ascii (s t : QString) (hs : ∀ ch ∈ s, ch.toNat < 0x80)
    (ht : ∀ ch ∈ t, ch.toNat < 0x80) (h : toUtf8 s = toUtf8 t) : s = t := by
  rw [(toUtf8_ascii s hs).1, (toUtf8_ascii t ht).1] at h
  exact List.map_injective_iff.mpr (fun a b hab => char_toNat_injective a b hab) h

end QUnQLite

/-! ### The engine model: addressing a record -/

namespace EngineModel

open QUnQLite QUnQLiteCursor

theorem lookup_put_other (k k' v : Bytes) (h : k ≠ k') :
    ∀ recs : List (Bytes × Bytes), lookup k (put k' v recs) = lookup k recs
  | [] => by simp [put, lookup, h]
  | (k'', v'') :: rest => by
    simp only [put]
    split
    · next hk => subst hk; simp [lookup, h]
    · split
      · simp [lookup, h]
      · by_cases hk : k = k''
        · simp [lookup, hk]
        · simp [lookup, hk, lookup_put_other k k' v h rest]

theorem indexOf_of_lookup (k v : Bytes) :
    ∀ recs : List (Bytes × Bytes), lookup k recs = some v →
      ∃ i, indexOf k recs = some i ∧ recs.get? i = some (k, v)
  | [], h => by simp [lookup] at h
  | (k', v') :: rest, h => by
    by_cases hk : k = k'
    · subst hk
      simp only [lookup, if_true, Option.some.injEq] at h
      exact ⟨0, by simp [indexOf], by simp [h]⟩
    · simp only [lookup, hk, if_false] at h
      obtain ⟨i, hi, hg⟩ := indexOf_of_lookup k v rest h
      exact ⟨i + 1, by simp [indexOf, hk, hi], by simpa using hg⟩

/-- In the engine model, an exact-match seek for a key under which `v` is stored returns
true and leaves the cursor valid on that record: `key()` returns the engine key and
`value()` returns `v`. -/
theorem seek_exact_of_lookup (c : EngineConstants) (q : QUnQLitePrivate Store) (d : Private)
    (k : QString) (v : Bytes)
    (h : lookup (argBytes (toUtf8 k) (size k)) q.db.records = some v) :
    (seek (engine c) c q d k SeekDirection.ExactMatch).1 = true ∧
    isValid (engine c) (seek (engine c) c q d k SeekDirection.ExactMatch).2 d = true ∧
    (key (engine c) c (seek (engine c) c q d k SeekDirection.ExactMatch).2 d).1
      = argBytes (toUtf8 k) (size k) ∧
    (value (engine c) c (seek (engine c) c q d k SeekDirection.ExactMatch).2 d).1 = v := by
  obtain ⟨i, hi, hg⟩ := indexOf_of_lookup _ v q.db.records h
  have hcur : current (seek (engine c) c q d k SeekDirection.ExactMatch).2.db d.cursor
      = some (argBytes (toUtf8 k) (size k), v) := by
    simp [seek, QUnQLiteCursor.callEngine, engine, hi, position, setCursor, current,
      SeekDirection.value, Private.setResultCode, setResultCode]
    simpa using hg
  refine ⟨?_, ?_, (key_on_record c _ d _ hcur).1, (value_on_record c _ d _ hcur).1⟩
  · simp [seek, QUnQLiteCursor.callEngine, engine, hi, position, SeekDirection.value,
      Private.setResultCode, Private.isSuccess, setResultCode, isSuccess, ResultCode.value]
  · rw [isValid_iff_current, hcur]; rfl

/-- In the engine model, removing a key under which a record is stored returns true and
leaves no record under that key. -/
theorem remove_of_lookup (c : EngineConstants) (q : QUnQLitePrivate Store) (k : QString)
    (v : Bytes) (h : lookup (argBytes (toUtf8 k) (size k)) q.db.records = some v) :
    (remove (engine c) c q k).1 = true ∧
    lookup (argBytes (toUtf8 k) (size k)) (remove (engine c) c q k).2.db.records = none := by
  simp [remove, QUnQLite.callEngine, engine, h, setResultCode, isSuccess, ResultCode.value,
    lookup_erase_self]

theorem records_after_store (c : EngineConstants) (q : QUnQLitePrivate Store)
    (k v : QString) :
    (store (engine c) c q k v).2.db.records
      = put (argBytes (toUtf8 k) (size k)) (argBytes (toUtf8 v) (size v)) q.db.records := by
  simp [store, QUnQLite.callEngine, engine, setResultCode]

theorem records_after_append (c : EngineConstants) (q : QUnQLitePrivate Store)
    (k v : QString) (old : Bytes)
    (h : lookup (argBytes (toUtf8 k) (size k)) q.db.records = some old) :
    (append (engine c) c q k v).2.db.records
      = put (argBytes (toUtf8 k) (size k)) (old ++ argBytes (toUtf8 v) (size v))
          q.db.records := by
  simp [append, QUnQLite.callEngine, engine, setResultCode, h]

/-- In the engine model the answer of `isValid()` follows a mutation through the Handle:
with the cursor on the only record, "k", it is true, and after `remove("k")` it is
false. -/
theorem isValid_follows_removal :
    isValid (engine unqliteHeader) onRecordK (cursor (engine unqliteHeader) kAbcHandle).1
      = true ∧
    isValid (engine unqliteHeader)
      (remove (engine unqliteHeader) unqliteHeader onRecordK ['k']).2
      (cursor (engine unqliteHeader) kAbcHandle).1 = false := by
  decide

end EngineModel

/-! ### The engine model: two cursors at the same position -/

namespace EngineModel

open QUnQLite QUnQLiteCursor

/-- Two cursors of stores with the same records and the same rollback content, standing
at the same position: what decides the outcome of every operation in the engine model. -/
theorem boolOp_run_same (c : EngineConstants) (da db : Private)
    (qa qb : QUnQLitePrivate Store) (op : BoolOp)
    (hr : qa.db.records = qb.db.records) (hj : qa.db.journal = qb.db.journal)
    (hc : qa.db.cursors da.cursor = qb.db.cursors db.cursor) :
    (op.run (engine c) c da qa).1 = (op.run (engine c) c db qb).1 ∧
    lastErrorCode (op.run (engine c) c da qa).2 = lastErrorCode (op.run (engine c) c db qb).2 ∧
    (op.run (engine c) c da qa).2.db.records = (op.run (engine c) c db qb).2.db.records ∧
    (op.run (engine c) c da qa).2.db.journal = (op.run (engine c) c db qb).2.db.journal ∧
    (op.run (engine c) c da qa).2.db.cursors da.cursor
      = (op.run (engine c) c db qb).2.db.cursors db.cursor := by
  cases op <;>
    simp only [BoolOp.run, openDb, close, append, store, remove, begin, commit, rollback,
      reset, seek, first, last, next, previous, QUnQLite.callEngine,
      QUnQLiteCursor.callEngine, Private.setResultCode, Private.isSuccess, setResultCode,
      isSuccess, lastErrorCode, engine, openJournal, position, setCursor, hr, hj, hc] <;>
    (try ((repeat' split) <;> simp [hr, hj, hc]))

theorem op_run_same (c : EngineConstants) (da db : Private)
    (qa qb : QUnQLitePrivate Store) (op : Op)
    (he : lastErrorCode qa = lastErrorCode qb)
    (hr : qa.db.records = qb.db.records) (hj : qa.db.journal = qb.db.journal)
    (hc : qa.db.cursors da.cursor = qb.db.cursors db.cursor) :
    (op.run (engine c) c da qa).1 = (op.run (engine c) c db qb).1 ∧
    lastErrorCode (op.run (engine c) c da qa).2 = lastErrorCode (op.run (engine c) c db qb).2 ∧
    (op.run (engine c) c da qa).2.db.records = (op.run (engine c) c db qb).2.db.records ∧
    (op.run (engine c) c da qa).2.db.journal = (op.run (engine c) c db qb).2.db.journal ∧
    (op.run (engine c) c da qa).2.db.cursors da.cursor
      = (op.run (engine c) c db qb).2.db.cursors db.cursor := by
  cases op with
  | boolean bop =>
    obtain ⟨h1, h2, h3, h4, h5⟩ := boolOp_run_same c da db qa qb bop hr hj hc
    exact ⟨by simp only [Op.run, h1], h2, h3, h4, h5⟩
  | fetch k =>
    cases hl : lookup (argBytes (toUtf8 k) (size k)) qb.db.records <;>
      simp only [Op.run, fetch, setResultCode, isSuccess, lastErrorCode, engine, readOut, hr,
        hl] <;>
      split <;> simp [hr, hj, hc]
  | key =>
    have hcur : current qa.db da.cursor = current qb.db db.cursor := by
      simp [current, hc, hr]
    cases hb : current qb.db db.cursor <;>
      simp only [Op.run, key, Private.setResultCode, Private.isSuccess, setResultCode,
        isSuccess, lastErrorCode, engine, readOut, hcur, hb] <;>
      split <;> simp [hr, hj, hc]
  | value =>
    have hcur : current qa.db da.cursor = current qb.db db.cursor := by
      simp [current, hc, hr]
    cases hb : current qb.db db.cursor <;>
      simp only [Op.run, value, Private.setResultCode, Private.isSuccess, setResultCode,
        isSuccess, lastErrorCode, engine, readOut, hcur, hb] <;>
      split <;> simp [hr, hj, hc]
  | isValid =>
    have hcur : current qa.db da.cursor = current qb.db db.cursor := by
      simp [current, hc, hr]
    simp [Op.run, isValid, engine, hr, hj, hc, hcur, he]

theorem runOps_same (c : EngineConstants) (da db : Private) (ops : List Op) :
    ∀ (qa qb : QUnQLitePrivate Store), lastErrorCode qa = lastErrorCode qb →
      qa.db.records = qb.db.records →
      qa.db.journal = qb.db.journal → qa.db.cursors da.cursor = qb.db.cursors db.cursor →
      runOps (engine c) c da ops qa = runOps (engine c) c db ops qb := by
  induction ops with
  | nil => intros; rfl
  | cons op rest ih =>
    intro qa qb he hr hj hc
    obtain ⟨h1, h2, h3, h4, h5⟩ := op_run_same c da db qa qb op he hr hj hc
    simp only [runOps, h1, h2]
    rw [ih _ _ h2 h3 h4 h5]

end EngineModel

/-! ### The engine model: range seeks -/

namespace EngineModel

open QUnQLite QUnQLiteCursor

/-- On records in ascending key order, a predicate that passes from a key to every smaller
key holds exactly on the first `n` records, `n` being the number of records it holds on. -/
theorem filter_ascending (p : Bytes × Bytes → Bool)
    (hp : ∀ a b : Bytes × Bytes, keyLt a.1 b.1 = true → p b = true → p a = true) :
    ∀ recs : List (Bytes × Bytes), Ascending recs → ∀ (i : Nat) (r : Bytes × Bytes),
      recs.get? i = some r → (p r = true ↔ i < (recs.filter p).length)
  | [], _, i, r, h => by simp at h
  | r0 :: rest, hasc, i, r, h => by
    unfold Ascending at hasc
    rw [List.pairwise_cons] at hasc
    have ih := filter_ascending p hp rest hasc.2
    by_cases h0 : p r0 = true
    · cases i with
      | zero =>
        simp only [List.get?_cons_zero, Option.some.injEq] at h
        subst h
        simp [List.filter, h0]
      | succ j =>
        simp only [List.get?_cons_succ] at h
        rw [ih j r h]
        simp [List.filter, h0]
    · have hnone : ∀ x ∈ rest, p x = false := by
        intro x hx
        cases hpx : p x with
        | false => rfl
        | true => exact absurd (hp r0 x (hasc.1 x hx) hpx) h0
      have hnil : rest.filter p = [] := by
        rw [List.filter_eq_nil_iff]
        intro x hx; simp [hnone x hx]
      have h0' : p r0 = false := by simpa using h0
      cases i with
      | zero =>
        simp only [List.get?_cons_zero, Option.some.injEq] at h
        subst h
        simp [List.filter, h0', hnil]
      | succ j =>
        simp only [List.get?_cons_succ] at h
        have hmem : r ∈ rest := List.mem_iff_get?.mpr ⟨j, h⟩
        simp [List.filter, h0', hnil, hnone r hmem]

theorem seekLe_greatest_below (k : Bytes) (recs : List (Bytes × Bytes))
    (hs : Ascending recs) :
    ((∃ r ∈ recs, keyLt r.1 k = true) →
      ∃ i r, seekLe k recs = some i ∧ recs.get? i = some r ∧ keyLt r.1 k = true ∧
        ∀ r' ∈ recs, keyLt r'.1 k = true → r' = r ∨ keyLt r'.1 r.1 = true) ∧
    ((∀ r ∈ recs, keyLt r.1 k = false) → seekLe k recs = none) := by
  have hf := filter_ascending (fun r => keyLt r.1 k)
    (fun a b hab hb => keyLt_trans _ _ _ hab hb) recs hs
  have hlen : (recs.filter (fun r => keyLt r.1 k)).length ≤ recs.length :=
    List.length_filter_le _ _
  constructor
  · rintro ⟨r0, hr0, hp0⟩
    obtain ⟨i0, hi0⟩ := List.mem_iff_get?.mp hr0
    have hpos : i0 < (recs.filter (fun r => keyLt r.1 k)).length := (hf i0 r0 hi0).mp hp0
    have hlt : (recs.filter (fun r => keyLt r.1 k)).length - 1 < recs.length := by omega
    refine ⟨(recs.filter (fun r => keyLt r.1 k)).length - 1, recs.get ⟨_, hlt⟩, ?_,
      List.get?_eq_get hlt, ?_, ?_⟩
    · simp only [seekLe]
      rw [if_neg (by omega)]
    · exact (hf _ _ (List.get?_eq_get hlt)).mpr (by omega)
    · intro r' hr' hp'
      obtain ⟨i', hi'⟩ := List.mem_iff_get?.mp hr'
      have hi'n := (hf i' r' hi').mp hp'
      obtain ⟨hi'lt, hget⟩ := List.get?_eq_some.mp hi'
      by_cases heq : i' = (recs.filter (fun r => keyLt r.1 k)).length - 1
      · left; subst heq; exact hget.symm
      · right
        rw [← hget]
        exact List.pairwise_iff_get.mp hs ⟨i', hi'lt⟩ ⟨_, hlt⟩ (by simp only [Fin.mk_lt_mk]; omega)
  · intro hall
    have hnil : recs.filter (fun r => keyLt r.1 k) = [] := by
      rw [List.filter_eq_nil_iff]
      intro x hx; simp [hall x hx]
    simp [seekLe, hnil]

theorem seekGe_smallest_above (k : Bytes) (recs : List (Bytes × Bytes))
    (hs : Ascending recs) :
    ((∃ r ∈ recs, keyLt k r.1 = true) →
      ∃ i r, seekGe k recs = some i ∧ recs.get? i = some r ∧ keyLt k r.1 = true ∧
        ∀ r' ∈ recs, keyLt k r'.1 = true → r' = r ∨ keyLt r.1 r'.1 = true) ∧
    ((∀ r ∈ recs, keyLt k r.1 = false) → seekGe k recs = none) := by
  have hf := filter_ascending (fun r => !keyLt k r.1)
    (fun a b hab hb => by
      simp only [Bool.not_eq_true'] at hb ⊢
      cases hka : keyLt k a.1 with
      | false => rfl
      | true => rw [keyLt_trans _ _ _ hka hab] at hb; exact absurd hb (by decide)) recs hs
  have hlen : (recs.filter (fun r => !keyLt k r.1)).length ≤ recs.length :=
    List.length_filter_le _ _
  constructor
  · rintro ⟨r0, hr0, hp0⟩
    obtain ⟨i0, hi0⟩ := List.mem_iff_get?.mp hr0
    obtain ⟨hi0lt, _⟩ := List.get?_eq_some.mp hi0
    have hge0 : ¬ i0 < (recs.filter (fun r => !keyLt k r.1)).length := by
      intro h
      have := (hf i0 r0 hi0).mpr h
      simp [hp0] at this
    have hlt : (recs.filter (fun r => !keyLt k r.1)).length < recs.length := by omega
    refine ⟨(recs.filter (fun r => !keyLt k r.1)).length, recs.get ⟨_, hlt⟩, ?_,
      List.get?_eq_get hlt, ?_, ?_⟩
    · simp only [seekGe]
      rw [if_pos hlt]
    · cases hk : keyLt k (recs.get ⟨_, hlt⟩).1 with
      | true => rfl
      | false =>
        have := (hf _ _ (List.get?_eq_get hlt)).mp (by simpa using hk)
        omega
    · intro r' hr' hp'
      obtain ⟨i', hi'⟩ := List.mem_iff_get?.mp hr'
      have hi'n : ¬ i' < (recs.filter (fun r => !keyLt k r.1)).length := by
        intro h
        have := (hf i' r' hi').mpr h
        simp [hp'] at this
      obtain ⟨hi'lt, hget⟩ := List.get?_eq_some.mp hi'
      by_cases heq : i' = (recs.filter (fun r => !keyLt k r.1)).length
      · left; subst heq; exact hget.symm
      · right
        rw [← hget]
        exact List.pairwise_iff_get.mp hs ⟨_, hlt⟩ ⟨i', hi'lt⟩ (by simp only [Fin.mk_lt_mk]; omega)
  · intro hall
    have hfull : recs.filter (fun r => !keyLt k r.1) = recs := by
      rw [List.filter_eq_self]
      intro x hx; simp [hall x hx]
    simp [seekGe, hfull]

/-- In the engine model, on records in ascending key order and with distinct direction
constants, `seek(k, Le)` leaves the cursor on the greatest stored key strictly less than
the engine key of `k` (the first `size k` bytes of its UTF-8 encoding) and not valid when
there is none; `seek(k, Ge)` leaves it on the smallest stored key strictly greater than the
engine key and not valid when there is none.  For an ASCII-only `k` the engine key is the
UTF-8 encoding of `k`. -/
theorem seek_le_ge_on_engine_key (c : EngineConstants) (q : QUnQLitePrivate Store)
    (d : Private) (k : QString) (hs : Ascending q.db.records)
    (hle : c.UNQLITE_CURSOR_MATCH_LE ≠ c.UNQLITE_CURSOR_MATCH_EXACT)
    (hge : c.UNQLITE_CURSOR_MATCH_GE ≠ c.UNQLITE_CURSOR_MATCH_EXACT)
    (hgl : c.UNQLITE_CURSOR_MATCH_GE ≠ c.UNQLITE_CURSOR_MATCH_LE) :
    ((∃ r ∈ q.db.records, keyLt r.1 (argBytes (toUtf8 k) (size k)) = true) →
      ∃ r, current (seek (engine c) c q d k SeekDirection.Le).2.db d.cursor = some r ∧
        r ∈ q.db.records ∧ keyLt r.1 (argBytes (toUtf8 k) (size k)) = true ∧
        ∀ r' ∈ q.db.records, keyLt r'.1 (argBytes (toUtf8 k) (size k)) = true →
          r' = r ∨ keyLt r'.1 r.1 = true) ∧
    ((∀ r ∈ q.db.records, keyLt r.1 (argBytes (toUtf8 k) (size k)) = false) →
      isValid (engine c) (seek (engine c) c q d k SeekDirection.Le).2 d = false) ∧
    ((∃ r ∈ q.db.records, keyLt (argBytes (toUtf8 k) (size k)) r.1 = true) →
      ∃ r, current (seek (engine c) c q d k SeekDirection.Ge).2.db d.cursor = some r ∧
        r ∈ q.db.records ∧ keyLt (argBytes (toUtf8 k) (size k)) r.1 = true ∧
        ∀ r' ∈ q.db.records, keyLt (argBytes (toUtf8 k) (size k)) r'.1 = true →
          r' = r ∨ keyLt r.1 r'.1 = true) ∧
    ((∀ r ∈ q.db.records, keyLt (argBytes (toUtf8 k) (size k)) r.1 = false) →
      isValid (engine c) (seek (engine c) c q d k SeekDirection.Ge).2 d = false) ∧
    ((∀ ch ∈ k, ch.toNat < 0x80) → argBytes (toUtf8 k) (size k) = toUtf8 k) := by
  obtain ⟨hle1, hle2⟩ := seekLe_greatest_below (argBytes (toUtf8 k) (size k)) q.db.records hs
  obtain ⟨hge1, hge2⟩ := seekGe_smallest_above (argBytes (toUtf8 k) (size k)) q.db.records hs
  refine ⟨fun h => ?_, fun h => ?_, fun h => ?_, fun h => ?_, argBytes_ascii k⟩
  · obtain ⟨i, r, hi, hg, hp, hmax⟩ := hle1 h
    refine ⟨r, ?_, List.mem_iff_get?.mpr ⟨i, hg⟩, hp, hmax⟩
    simp only [seek, QUnQLiteCursor.callEngine, engine, SeekDirection.value, if_neg hle, if_true,
      hi, position, setCursor, current, Private.setResultCode, setResultCode]
    simpa using hg
  · rw [isValid_iff_current]
    simp [seek, QUnQLiteCursor.callEngine, engine, SeekDirection.value, hle, hle2 h, position,
      setCursor, current, Private.setResultCode, setResultCode]
  · obtain ⟨i, r, hi, hg, hp, hmin⟩ := hge1 h
    refine ⟨r, ?_, List.mem_iff_get?.mpr ⟨i, hg⟩, hp, hmin⟩
    simp only [seek, QUnQLiteCursor.callEngine, engine, SeekDirection.value, if_neg hge,
      if_neg hgl, if_true, hi, position, setCursor, current, Private.setResultCode,
      setResultCode]
    simpa using hg
  · rw [isValid_iff_current]
    simp [seek, QUnQLiteCursor.callEngine, engine, SeekDirection.value, hge, hgl, hge2 h,
      position, setCursor, current, Private.setResultCode, setResultCode]

end EngineModel

/-! ### Claim C11 -/

namespace EngineModel

open QUnQLite QUnQLiteCursor

/-- C11 (code defect, evaluated): with the single key 0xC3 0xA9 in the store, which is
strictly less than the UTF-8 bytes 0xC3 0xAA of the key U+00EA, `seek(U+00EA, Le)` returns
false and leaves the cursor invalid; with the single key 0xC3 0x80 in the store, which is
less than the UTF-8 bytes 0xC3 0xA9 of the key U+00E9, `seek(U+00E9, Ge)` returns true and
leaves the cursor on that smaller key: `seek` hands the engine only the first byte of
either key, because it passes the UTF-16 length as the byte length. -/
theorem seek_le_ge_compare_truncated_key :
    eAcuteHandle.db.records = [([195, 169], [118])] ∧
    toUtf8 [Char.ofNat 234] = [195, 170] ∧
    keyLt [195, 169] (toUtf8 [Char.ofNat 234]) = true ∧
    (seek (engine unqliteHeader) unqliteHeader eAcuteHandle { cursor := 0 }
      [Char.ofNat 234] SeekDirection.Le).1 = false ∧
    isValid (engine unqliteHeader)
      (seek (engine unqliteHeader) unqliteHeader eAcuteHandle { cursor := 0 }
        [Char.ofNat 234] SeekDirection.Le).2 { cursor := 0 } = false ∧
    aGraveHandle.db.records = [([195, 128], [118])] ∧
    toUtf8 [Char.ofNat 233] = [195, 169] ∧
    keyLt [195, 128] (toUtf8 [Char.ofNat 233]) = true ∧
    (seek (engine unqliteHeader) unqliteHeader aGraveHandle { cursor := 0 }
      [Char.ofNat 233] SeekDirection.Ge).1 = true ∧
    (key (engine unqliteHeader) unqliteHeader
      (seek (engine unqliteHeader) unqliteHeader aGraveHandle { cursor := 0 }
        [Char.ofNat 233] SeekDirection.Ge).2 { cursor := 0 }).1 = [195, 128] := by
  decide

end EngineModel

/-! ### Claim C12 -/

namespace EngineModel

open QUnQLite QUnQLiteCursor

/-- C12: in the engine model, from every handle state (in particular the state reached by
any sequence of operations), `reset()` succeeds and leaves the cursor at the position a
cursor freshly constructed on the same handle has: unpositioned, not valid; every following
sequence of operations then returns the same results and leaves the same result codes on
the reset cursor as on the fresh one; and a second `reset()` changes neither the position
nor the results of any following sequence. -/
theorem reset_returns_to_constructed_state (c : EngineConstants) (q0 : QUnQLitePrivate Store)
    (d : Private) (before ops : List Op) :
    (reset (engine c) c (stateAfter (engine c) c d before q0) d).1 = true ∧
    (reset (engine c) c (stateAfter (engine c) c d before q0) d).2.db.cursors d.cursor
      = (construct (engine c) (stateAfter (engine c) c d before q0)).2.db.cursors
          (construct (engine c) (stateAfter (engine c) c d before q0)).1.cursor ∧
    (reset (engine c) c (stateAfter (engine c) c d before q0) d).2.db.cursors d.cursor
      = none ∧
    isValid (engine c) (reset (engine c) c (stateAfter (engine c) c d before q0) d).2 d
      = false ∧
    isValid (engine c) (construct (engine c) (stateAfter (engine c) c d before q0)).2
      (construct (engine c) (stateAfter (engine c) c d before q0)).1 = false ∧
    lastErrorCode (reset (engine c) c (stateAfter (engine c) c d before q0) d).2
      = lastErrorCode (construct (engine c) (stateAfter (engine c) c d before q0)).2 ∧
    runOps (engine c) c d ops (reset (engine c) c (stateAfter (engine c) c d before q0) d).2
      = runOps (engine c) c (construct (engine c) (stateAfter (engine c) c d before q0)).1
          ops (construct (engine c) (stateAfter (engine c) c d before q0)).2 ∧
    (reset (engine c) c
        (reset (engine c) c (stateAfter (engine c) c d before q0) d).2 d).2.db.cursors
        d.cursor
      = (reset (engine c) c (stateAfter (engine c) c d before q0) d).2.db.cursors d.cursor ∧
    runOps (engine c) c d ops
        (reset (engine c) c
          (reset (engine c) c (stateAfter (engine c) c d before q0) d).2 d).2
      = runOps (engine c) c d ops
          (reset (engine c) c (stateAfter (engine c) c d before q0) d).2 := by
  generalize stateAfter (engine c) c d before q0 = q
  have hres : (reset (engine c) c q d).2.db.records = q.db.records ∧
      (reset (engine c) c q d).2.db.journal = q.db.journal ∧
      (reset (engine c) c q d).2.db.cursors d.cursor = none := by
    simp [reset, QUnQLiteCursor.callEngine, engine, Private.setResultCode, setResultCode,
      setCursor]
  have hcon : (construct (engine c) q).2.db.records = q.db.records ∧
      (construct (engine c) q).2.db.journal = q.db.journal ∧
      (construct (engine c) q).2.db.cursors (construct (engine c) q).1.cursor = none := by
    simp [construct, engine, Private.setResultCode, setResultCode, setCursor]
  have hres2 : (reset (engine c) c (reset (engine c) c q d).2 d).2.db.records = q.db.records ∧
      (reset (engine c) c (reset (engine c) c q d).2 d).2.db.journal = q.db.journal ∧
      (reset (engine c) c (reset (engine c) c q d).2 d).2.db.cursors d.cursor = none := by
    simp [reset, QUnQLiteCursor.callEngine, engine, Private.setResultCode, setResultCode,
      setCursor]
  have hcode : lastErrorCode (reset (engine c) c q d).2
      = lastErrorCode (construct (engine c) q).2 := by
    simp [reset, construct, QUnQLiteCursor.callEngine, engine, Private.setResultCode,
      setResultCode, lastErrorCode]
  have hcode2 : lastErrorCode (reset (engine c) c (reset (engine c) c q d).2 d).2
      = lastErrorCode (reset (engine c) c q d).2 := by
    simp [reset, QUnQLiteCursor.callEngine, engine, Private.setResultCode, setResultCode,
      lastErrorCode]
  refine ⟨?_, hres.2.2.trans hcon.2.2.symm, hres.2.2, ?_, ?_, hcode, ?_,
    hres2.2.2.trans hres.2.2.symm, ?_⟩
  · simp [reset, QUnQLiteCursor.callEngine, engine, Private.setResultCode,
      Private.isSuccess, setResultCode, isSuccess, ResultCode.value]
  · rw [isValid_iff_current]; simp [current, hres.2.2]
  · rw [isValid_iff_current]; simp [current, hcon.2.2]
  · exact runOps_same c _ _ ops _ _ hcode (hres.1.trans hcon.1.symm)
      (hres.2.1.trans hcon.2.1.symm) (hres.2.2.trans hcon.2.2.symm)
  · exact runOps_same c _ _ ops _ _ hcode2 (hres2.1.trans hres.1.symm)
      (hres2.2.1.trans hres.2.1.symm) (hres2.2.2.trans hres.2.2.symm)

end EngineModel

/-! ### Claim C13 -/

namespace QUnQLiteCursor

open QUnQLite EngineModel

variable {σ : Type}

/-- C13: `isValid()` returns true exactly when the engine's validity query answers 1 on
the engine state of the moment; the answer does not depend on the last-result-code or on
anything kept from earlier calls: after any boolean Handle or Cursor operation it is the
engine's answer on the state that operation's engine call left; and the call hands the
handle state back unchanged, so inserting it anywhere in a sequence of operations changes
neither the state reached (cursor position, last-result-code) nor what the other
operations return. -/
theorem isValid_is_live_and_changes_nothing (E : Engine σ) (c : EngineConstants)
    (q : QUnQLitePrivate σ) (d : Private) (rc : Int) (op : BoolOp) (ops1 ops2 : List Op) :
    (isValid E q d = true ↔ E.unqlite_kv_cursor_valid_entry q.db d.cursor = 1) ∧
    isValid E (setResultCode q rc) d = isValid E q d ∧
    (isValid E (op.run E c d q).2 d = true ↔
      E.unqlite_kv_cursor_valid_entry (E.stateAfterCall q.db (op.engineCall c d)) d.cursor
        = 1) ∧
    (Op.run E c d Op.isValid q).1 = OpResult.boolean (isValid E q d) ∧
    (Op.run E c d Op.isValid q).2 = q ∧
    lastErrorCode (Op.run E c d Op.isValid q).2 = lastErrorCode q ∧
    stateAfter E c d (ops1 ++ Op.isValid :: ops2) q = stateAfter E c d (ops1 ++ ops2) q ∧
    runOps E c d (ops1 ++ Op.isValid :: ops2) q
      = runOps E c d ops1 q
        ++ (OpResult.boolean (isValid E (stateAfter E c d ops1 q) d),
            lastErrorCode (stateAfter E c d ops1 q))
          :: runOps E c d ops2 (stateAfter E c d ops1 q) := by
  refine ⟨by simp [isValid], rfl, ?_, rfl, rfl, rfl, ?_, ?_⟩
  · rw [← boolOp_db]; simp [isValid]
  · rw [stateAfter_append, stateAfter_append]; rfl
  · rw [runOps_append]; rfl

end QUnQLiteCursor

/-! ### Claim C14 -/

namespace QUnQLite

open QUnQLiteCursor

variable {σ : Type}

/-- C14: run on an engine that logs its calls, every boolean Handle and Cursor operation
appends exactly one engine call and leaves that call's status in the last-result-code;
`isValid` is one validity query; `fetch`, `key` and `value` append the length query alone
when it fails and the length query followed by one fill call with the reported length when
it succeeds; and when the engine answers Busy or Locked (both different from Ok), a boolean
operation returns false with exactly that code after its one call, and a read whose length
query got that answer stops after that one call with exactly that code. -/
theorem no_retry_one_engine_call (E : Engine σ) (c : EngineConstants) (d : Private)
    (q : QUnQLitePrivate (σ × List EngineCall)) (op : BoolOp) (k : QString)
    (hbusy : c.UNQLITE_BUSY ≠ c.UNQLITE_OK) (hlocked : c.UNQLITE_LOCKED ≠ c.UNQLITE_OK) :
    ((op.run (traced E) c d q).2.db.2 = q.db.2 ++ [op.engineCall c d] ∧
      lastErrorCode (op.run (traced E) c d q).2 = E.status q.db.1 (op.engineCall c d) ∧
      (E.status q.db.1 (op.engineCall c d) = ResultCode.Busy.value c ∨
        E.status q.db.1 (op.engineCall c d) = ResultCode.Locked.value c →
        (op.run (traced E) c d q).1 = false)) ∧
    isValid (traced E) q d = (E.unqlite_kv_cursor_valid_entry q.db.1 d.cursor == 1) ∧
    (((E.unqlite_kv_fetch q.db.1 (toUtf8 k) (size k) none).1.rc ≠ ResultCode.Ok.value c →
        (fetch (traced E) c q k).2.db.2
          = q.db.2 ++ [.unqlite_kv_fetch (toUtf8 k) (size k) none] ∧
        lastErrorCode (fetch (traced E) c q k).2
          = (E.unqlite_kv_fetch q.db.1 (toUtf8 k) (size k) none).1.rc) ∧
      ((E.unqlite_kv_fetch q.db.1 (toUtf8 k) (size k) none).1.rc = ResultCode.Ok.value c →
        (fetch (traced E) c q k).2.db.2
          = q.db.2 ++ [.unqlite_kv_fetch (toUtf8 k) (size k) none,
              .unqlite_kv_fetch (toUtf8 k) (size k)
                (some (E.unqlite_kv_fetch q.db.1 (toUtf8 k) (size k) none).1.length)] ∧
        lastErrorCode (fetch (traced E) c q k).2
          = (E.unqlite_kv_fetch (E.unqlite_kv_fetch q.db.1 (toUtf8 k) (size k) none).2
              (toUtf8 k) (size k)
              (some (E.unqlite_kv_fetch q.db.1 (toUtf8 k) (size k) none).1.length)).1.rc) ∧
      ((E.unqlite_kv_fetch q.db.1 (toUtf8 k) (size k) none).1.rc = ResultCode.Busy.value c ∨
        (E.unqlite_kv_fetch q.db.1 (toUtf8 k) (size k) none).1.rc
          = ResultCode.Locked.value c →
        (fetch (traced E) c q k).2.db.2
          = q.db.2 ++ [.unqlite_kv_fetch (toUtf8 k) (size k) none] ∧
        lastErrorCode (fetch (traced E) c q k).2
          = (E.unqlite_kv_fetch q.db.1 (toUtf8 k) (size k) none).1.rc)) ∧
    (((E.unqlite_kv_cursor_key q.db.1 d.cursor none).1.rc ≠ ResultCode.Ok.value c →
        (key (traced E) c q d).2.db.2 = q.db.2 ++ [.unqlite_kv_cursor_key d.cursor none] ∧
        lastErrorCode (key (traced E) c q d).2
          = (E.unqlite_kv_cursor_key q.db.1 d.cursor none).1.rc) ∧
      ((E.unqlite_kv_cursor_key q.db.1 d.cursor none).1.rc = ResultCode.Ok.value c →
        (key (traced E) c q d).2.db.2
          = q.db.2 ++ [.unqlite_kv_cursor_key d.cursor none,
              .unqlite_kv_cursor_key d.cursor
                (some (E.unqlite_kv_cursor_key q.db.1 d.cursor none).1.length)] ∧
        lastErrorCode (key (traced E) c q d).2
          = (E.unqlite_kv_cursor_key (E.unqlite_kv_cursor_key q.db.1 d.cursor none).2
              d.cursor
              (some (E.unqlite_kv_cursor_key q.db.1 d.cursor none).1.length)).1.rc) ∧
      ((E.unqlite_kv_cursor_key q.db.1 d.cursor none).1.rc = ResultCode.Busy.value c ∨
        (E.unqlite_kv_cursor_key q.db.1 d.cursor none).1.rc = ResultCode.Locked.value c →
        (key (traced E) c q d).2.db.2 = q.db.2 ++ [.unqlite_kv_cursor_key d.cursor none] ∧
        lastErrorCode (key (traced E) c q d).2
          = (E.unqlite_kv_cursor_key q.db.1 d.cursor none).1.rc)) ∧
    (((E.unqlite_kv_cursor_data q.db.1 d.cursor none).1.rc ≠ ResultCode.Ok.value c →
        (value (traced E) c q d).2.db.2
          = q.db.2 ++ [.unqlite_kv_cursor_data d.cursor none] ∧
        lastErrorCode (value (traced E) c q d).2
          = (E.unqlite_kv_cursor_data q.db.1 d.cursor none).1.rc) ∧
      ((E.unqlite_kv_cursor_data q.db.1 d.cursor none).1.rc = ResultCode.Ok.value c →
        (value (traced E) c q d).2.db.2
          = q.db.2 ++ [.unqlite_kv_cursor_data d.cursor none,
              .unqlite_kv_cursor_data d.cursor
                (some (E.unqlite_kv_cursor_data q.db.1 d.cursor none).1.length)] ∧
        lastErrorCode (value (traced E) c q d).2
          = (E.unqlite_kv_cursor_data (E.unqlite_kv_cursor_data q.db.1 d.cursor none).2
              d.cursor
              (some (E.unqlite_kv_cursor_data q.db.1 d.cursor none).1.length)).1.rc) ∧
      ((E.unqlite_kv_cursor_data q.db.1 d.cursor none).1.rc = ResultCode.Busy.value c ∨
        (E.unqlite_kv_cursor_data q.db.1 d.cursor none).1.rc = ResultCode.Locked.value c →
        (value (traced E) c q d).2.db.2
          = q.db.2 ++ [.unqlite_kv_cursor_data d.cursor none] ∧
        lastErrorCode (value (traced E) c q d).2
          = (E.unqlite_kv_cursor_data q.db.1 d.cursor none).1.rc)) := by
  have hretry : ∀ rc : Int, rc = ResultCode.Busy.value c ∨ rc = ResultCode.Locked.value c →
      rc ≠ ResultCode.Ok.value c := by
    intro rc h
    rcases h with h | h <;> rw [h] <;> simpa [ResultCode.value]
  have hop := boolOp_traced E c d op q
  have hf := fetch_traced E c k q
  have hk := key_traced E c d q
  have hv := value_traced E c d q
  refine ⟨⟨hop.1, hop.2.1, fun h => ?_⟩, rfl,
    ⟨fun h => ⟨(hf.1 h).1, (hf.1 h).2.2⟩, hf.2,
      fun h => ⟨(hf.1 (hretry _ h)).1, (hf.1 (hretry _ h)).2.2⟩⟩,
    ⟨fun h => ⟨(hk.1 h).1, (hk.1 h).2.2⟩, hk.2,
      fun h => ⟨(hk.1 (hretry _ h)).1, (hk.1 (hretry _ h)).2.2⟩⟩,
    ⟨fun h => ⟨(hv.1 h).1, (hv.1 h).2.2⟩, hv.2,
      fun h => ⟨(hv.1 (hretry _ h)).1, (hv.1 (hretry _ h)).2.2⟩⟩⟩
  have hne := hretry _ h
  cases hb : (op.run (traced E) c d q).1 with
  | false => rfl
  | true => exact absurd (hop.2.2.mp hb) hne

/-- C14 (instance): on an engine that answers Busy to every call, `store("k", "v")` returns
false, leaves the code Busy and has issued the one `unqlite_kv_store` call; Busy and Locked
differ from Ok in the published header. -/
theorem no_retry_one_engine_call_witness :
    EngineModel.unqliteHeader.UNQLITE_BUSY ≠ EngineModel.unqliteHeader.UNQLITE_OK ∧
    EngineModel.unqliteHeader.UNQLITE_LOCKED ≠ EngineModel.unqliteHeader.UNQLITE_OK ∧
    (BoolOp.run (traced (EngineModel.answering (-14))) EngineModel.unqliteHeader
      { cursor := 0 } (BoolOp.store ['k'] ['v']) { resultCode := 0, db := ((), []) }).2.db.2
      = [EngineCall.unqlite_kv_store [107] 1 [118] 1] ∧
    lastErrorCode (BoolOp.run (traced (EngineModel.answering (-14)))
      EngineModel.unqliteHeader { cursor := 0 } (BoolOp.store ['k'] ['v'])
      { resultCode := 0, db := ((), []) }).2 = -14 ∧
    (BoolOp.run (traced (EngineModel.answering (-14))) EngineModel.unqliteHeader
      { cursor := 0 } (BoolOp.store ['k'] ['v']) { resultCode := 0, db := ((), []) }).1
      = false :=
  ⟨by decide, by decide,
    (no_retry_one_engine_call (EngineModel.answering (-14)) EngineModel.unqliteHeader
      { cursor := 0 } { resultCode := 0, db := ((), []) } (BoolOp.store ['k'] ['v']) ['k']
      (by decide) (by decide)).1.1,
    (no_retry_one_engine_call (EngineModel.answering (-14)) EngineModel.unqliteHeader
      { cursor := 0 } { resultCode := 0, db := ((), []) } (BoolOp.store ['k'] ['v']) ['k']
      (by decide) (by decide)).1.2.1,
    (no_retry_one_engine_call (EngineModel.answering (-14)) EngineModel.unqliteHeader
      { cursor := 0 } { resultCode := 0, db := ((), []) } (BoolOp.store ['k'] ['v']) ['k']
      (by decide) (by decide)).1.2.2 (Or.inl rfl)⟩

end QUnQLite

/-! ### Claim C15 -/

namespace EngineModel

open QUnQLite QUnQLiteCursor

/-- C15 (code defect, evaluated): with the cursor of the example store on "a", `next()` and
the free-function increment move it to "b", while the member increment operator leaves it
on "a": its body is empty. -/
theorem member_increment_does_not_advance :
    (key (engine unqliteHeader) unqliteHeader onRecordA { cursor := 0 }).1 = [97] ∧
    (key (engine unqliteHeader) unqliteHeader
      (next (engine unqliteHeader) unqliteHeader onRecordA { cursor := 0 }).2
      { cursor := 0 }).1 = [98] ∧
    (key (engine unqliteHeader) unqliteHeader
      (incrementFree (engine unqliteHeader) unqliteHeader onRecordA { cursor := 0 })
      { cursor := 0 }).1 = [98] ∧
    (key (engine unqliteHeader) unqliteHeader
      (incrementMember (engine unqliteHeader) unqliteHeader onRecordA { cursor := 0 })
      { cursor := 0 }).1 = [97] := by
  decide

end EngineModel

/-! ### Claim C16 -/

namespace QUnQLite

open QUnQLiteCursor

variable {σ : Type}

/-- C16: `store`, `append`, `fetch`, `remove` and `seek` hand the engine the UTF-8 encoding
of the key (and value) as buffer and its UTF-16 code-unit count as length; for every
well-formed string that count is at least 0 and at most the UTF-8 byte length, equal to it
exactly when every character is below 0x80; so the bytes the engine reads lie within the
buffer and are an initial part of the encoding, the full encoding exactly when every
character is ASCII and strictly shorter exactly when some character is not. -/
theorem byte_length_within_utf8_buffer (E : Engine σ) (c : EngineConstants) (d : Private)
    (q : QUnQLitePrivate (σ × List EngineCall)) (k v s : QString) (sd : SeekDirection) :
    ((store (traced E) c q k v).2.db.2
        = q.db.2 ++ [.unqlite_kv_store (toUtf8 k) (size k) (toUtf8 v) (size v)] ∧
      (append (traced E) c q k v).2.db.2
        = q.db.2 ++ [.unqlite_kv_append (toUtf8 k) (size k) (toUtf8 v) (size v)] ∧
      ((fetch (traced E) c q k).2.db.2
          = q.db.2 ++ [.unqlite_kv_fetch (toUtf8 k) (size k) none] ∨
        (fetch (traced E) c q k).2.db.2
          = q.db.2 ++ [.unqlite_kv_fetch (toUtf8 k) (size k) none,
              .unqlite_kv_fetch (toUtf8 k) (size k)
                (some (E.unqlite_kv_fetch q.db.1 (toUtf8 k) (size k) none).1.length)]) ∧
      (remove (traced E) c q k).2.db.2
        = q.db.2 ++ [.unqlite_kv_delete (toUtf8 k) (size k)] ∧
      (seek (traced E) c q d k sd).2.db.2
        = q.db.2 ++ [.unqlite_kv_cursor_seek d.cursor (toUtf8 k) (size k) (sd.value c)]) ∧
    0 ≤ size s ∧
    size s ≤ ((toUtf8 s).length : Int) ∧
    (size s = ((toUtf8 s).length : Int) ↔ ∀ ch ∈ s, ch.toNat < 0x80) ∧
    (toUtf8 s).take (size s).toNat <+: toUtf8 s ∧
    ((toUtf8 s).take (size s).toNat = toUtf8 s ↔ ∀ ch ∈ s, ch.toNat < 0x80) ∧
    (((toUtf8 s).take (size s).toNat).length < (toUtf8 s).length ↔
      ∃ ch ∈ s, 0x80 ≤ ch.toNat) := by
  obtain ⟨hle, heq⟩ := size_le_utf8_length s
  obtain ⟨hpre, hlen, hfull⟩ := take_size_utf8 s
  have h0 := size_nonneg s
  refine ⟨⟨(boolOp_traced E c d (.store k v) q).1, (boolOp_traced E c d (.append k v) q).1,
    ?_, (boolOp_traced E c d (.remove k) q).1, (boolOp_traced E c d (.seek k sd) q).1⟩,
    h0, hle, heq, hpre, hfull, ?_⟩
  · by_cases h : (E.unqlite_kv_fetch q.db.1 (toUtf8 k) (size k) none).1.rc
        = ResultCode.Ok.value c
    · exact Or.inr ((fetch_traced E c k q).2 h).1
    · exact Or.inl ((fetch_traced E c k q).1 h).1
  · rw [hlen]
    constructor
    · intro hlt
      by_contra hno
      have hall : ∀ ch ∈ s, ch.toNat < 0x80 := by
        intro ch hch
        by_contra hge
        exact hno ⟨ch, hch, by omega⟩
      have := heq.mpr hall
      omega
    · rintro ⟨ch, hch, hge⟩
      have hne : size s ≠ ((toUtf8 s).length : Int) := by
        intro h
        have := heq.mp h ch hch
        omega
      omega

/-- C16 (instance): for the one-character string U+00E9 the length handed over is 1 and
the UTF-8 buffer holds the two bytes 0xC3 0xA9, so the engine reads the single byte
0xC3. -/
theorem byte_length_within_utf8_buffer_witness :
    size [Char.ofNat 233] = 1 ∧ toUtf8 [Char.ofNat 233] = [195, 169] ∧
    size [Char.ofNat 233] ≤ ((toUtf8 [Char.ofNat 233]).length : Int) ∧
    (toUtf8 [Char.ofNat 233]).take (size [Char.ofNat 233]).toNat
      <+: toUtf8 [Char.ofNat 233] :=
  ⟨by decide, by decide,
    (byte_length_within_utf8_buffer (EngineModel.answering 0) EngineModel.unqliteHeader
      { cursor := 0 } { resultCode := 0, db := ((), []) } [] [] [Char.ofNat 233]
      SeekDirection.ExactMatch).2.2.1,
    (byte_length_within_utf8_buffer (EngineModel.answering 0) EngineModel.unqliteHeader
      { cursor := 0 } { resultCode := 0, db := ((), []) } [] [] [Char.ofNat 233]
      SeekDirection.ExactMatch).2.2.2.2.1⟩

end QUnQLite

/-! ### Claim C17 -/

namespace EngineModel

open QUnQLite QUnQLiteCursor

/-- C17: `store`, `append`, `fetch`, `remove` and `seek` each hand the engine the UTF-8
encoding of the key with its UTF-16 code-unit count as length.  In the engine model, for
every key `k` and value `v`, `store(k, v)` succeeds and files the first `size v` bytes of
the UTF-8 encoding of `v` under the first `size k` bytes of the encoding of `k`; then
`fetch(k)` returns exactly those value bytes, `append(k, v2)` extends that record,
`remove(k)` returns true and deletes it, and `seek(k, ExactMatch)` returns true and leaves
the cursor valid on it.  When `v` is ASCII-only `fetch(k)` returns the UTF-8 encoding of
`v` in full, and for distinct ASCII-only keys `k` and `k2` a later `store(k2, v2)` leaves
the record of `k` as it was. -/
theorem same_engine_key_in_all_operations (c : EngineConstants) (q : QUnQLitePrivate Store)
    (qt : QUnQLitePrivate (Store × List EngineCall)) (d : Private) (k v k2 v2 : QString) :
    ((store (traced (engine c)) c qt k v).2.db.2
        = qt.db.2 ++ [.unqlite_kv_store (toUtf8 k) (size k) (toUtf8 v) (size v)] ∧
      (append (traced (engine c)) c qt k v).2.db.2
        = qt.db.2 ++ [.unqlite_kv_append (toUtf8 k) (size k) (toUtf8 v) (size v)] ∧
      (fetch (traced (engine c)) c qt k).2.db.2.take (qt.db.2.length + 1)
        = qt.db.2 ++ [.unqlite_kv_fetch (toUtf8 k) (size k) none] ∧
      (remove (traced (engine c)) c qt k).2.db.2
        = qt.db.2 ++ [.unqlite_kv_delete (toUtf8 k) (size k)] ∧
      (seek (traced (engine c)) c qt d k SeekDirection.ExactMatch).2.db.2
        = qt.db.2 ++ [.unqlite_kv_cursor_seek d.cursor (toUtf8 k) (size k)
            (SeekDirection.ExactMatch.value c)]) ∧
    (store (engine c) c q k v).1 = true ∧
    lookup ((toUtf8 k).take (size k).toNat) (store (engine c) c q k v).2.db.records
      = some ((toUtf8 v).take (size v).toNat) ∧
    (fetch (engine c) c (store (engine c) c q k v).2 k).1 = (toUtf8 v).take (size v).toNat ∧
    lastErrorCode (fetch (engine c) c (store (engine c) c q k v).2 k).2
      = ResultCode.Ok.value c ∧
    (fetch (engine c) c (append (engine c) c (store (engine c) c q k v).2 k v2).2 k).1
      = (toUtf8 v).take (size v).toNat ++ (toUtf8 v2).take (size v2).toNat ∧
    (remove (engine c) c (store (engine c) c q k v).2 k).1 = true ∧
    lookup ((toUtf8 k).take (size k).toNat)
      (remove (engine c) c (store (engine c) c q k v).2 k).2.db.records = none ∧
    (seek (engine c) c (store (engine c) c q k v).2 d k SeekDirection.ExactMatch).1 = true ∧
    isValid (engine c)
      (seek (engine c) c (store (engine c) c q k v).2 d k SeekDirection.ExactMatch).2 d
      = true ∧
    (key (engine c) c
      (seek (engine c) c (store (engine c) c q k v).2 d k SeekDirection.ExactMatch).2 d).1
      = (toUtf8 k).take (size k).toNat ∧
    (value (engine c) c
      (seek (engine c) c (store (engine c) c q k v).2 d k SeekDirection.ExactMatch).2 d).1
      = (toUtf8 v).take (size v).toNat ∧
    ((∀ ch ∈ v, ch.toNat < 0x80) →
      (fetch (engine c) c (store (engine c) c q k v).2 k).1 = toUtf8 v) ∧
    ((∀ ch ∈ k, ch.toNat < 0x80) → (∀ ch ∈ k2, ch.toNat < 0x80) → k ≠ k2 →
      (toUtf8 k).take (size k).toNat ≠ (toUtf8 k2).take (size k2).toNat ∧
      (fetch (engine c) c
        (store (engine c) c (store (engine c) c q k v).2 k2 v2).2 k).1
        = (toUtf8 v).take (size v).toNat) := by
  have hrec := records_after_store c q k v
  have hlook : lookup (argBytes (toUtf8 k) (size k)) (store (engine c) c q k v).2.db.records
      = some (argBytes (toUtf8 v) (size v)) := by
    rw [hrec]; exact lookup_put_self _ _ _
  have hfs := fetch_after_store c q k v
  have hseek := seek_exact_of_lookup c (store (engine c) c q k v).2 d k _ hlook
  have hrem := remove_of_lookup c (store (engine c) c q k v).2 k _ hlook
  refine ⟨⟨(boolOp_traced (engine c) c d (.store k v) qt).1,
      (boolOp_traced (engine c) c d (.append k v) qt).1, ?_,
      (boolOp_traced (engine c) c d (.remove k) qt).1,
      (boolOp_traced (engine c) c d (.seek k .ExactMatch) qt).1⟩,
    hfs.1, hlook, hfs.2.1, hfs.2.2, ?_, hrem.1, hrem.2, hseek.1, hseek.2.1, hseek.2.2.1,
    hseek.2.2.2, fun hv => fetch_after_store_ascii c q k v hv, ?_⟩
  · by_cases h : ((engine c).unqlite_kv_fetch qt.db.1 (toUtf8 k) (size k) none).1.rc
        = ResultCode.Ok.value c
    · rw [((fetch_traced (engine c) c k qt).2 h).1]
      simp [List.take_append_eq_append_take]
    · rw [((fetch_traced (engine c) c k qt).1 h).1]
      simp
  · refine (fetch_of_lookup c _ k _ ?_).1
    rw [records_after_append c _ k v2 _ hlook]
    exact lookup_put_self _ _ _
  · intro hk hk2 hne
    have hkeys : argBytes (toUtf8 k) (size k) ≠ argBytes (toUtf8 k2) (size k2) := by
      rw [argBytes_ascii k hk, argBytes_ascii k2 hk2]
      exact fun h => hne (toUtf8_injective_ascii k k2 hk hk2 h)
    refine ⟨hkeys, (fetch_of_lookup c _ k _ ?_).1⟩
    rw [records_after_store, lookup_put_other _ _ _ hkeys]
    exact hlook

/-- C17 (instance): after `store("a", "1")` and `store("b", "2")` on an empty store,
`fetch("a")` returns the byte of "1"; the keys are ASCII-only and distinct. -/
theorem same_engine_key_in_all_operations_witness :
    (∀ ch ∈ ['1'], ch.toNat < 0x80) ∧ (∀ ch ∈ ['a'], ch.toNat < 0x80) ∧
    (∀ ch ∈ ['b'], ch.toNat < 0x80) ∧ (['a'] : QString) ≠ ['b'] ∧
    (fetch (engine unqliteHeader) unqliteHeader
      (store (engine unqliteHeader) unqliteHeader freshHandle ['a'] ['1']).2 ['a']).1
      = toUtf8 ['1'] ∧
    (fetch (engine unqliteHeader) unqliteHeader
      (store (engine unqliteHeader) unqliteHeader
        (store (engine unqliteHeader) unqliteHeader freshHandle ['a'] ['1']).2
        ['b'] ['2']).2 ['a']).1 = [49] :=
  ⟨by decide, by decide, by decide, by decide,
    (same_engine_key_in_all_operations unqliteHeader freshHandle
      { resultCode := 0, db := (emptyStore, []) } { cursor := 0 } ['a'] ['1'] ['b'] ['2']
      ).2.2.2.2.2.2.2.2.2.2.2.2.1 (by decide),
    ((same_engine_key_in_all_operations unqliteHeader freshHandle
      { resultCode := 0, db := (emptyStore, []) } { cursor := 0 } ['a'] ['1'] ['b'] ['2']
      ).2.2.2.2.2.2.2.2.2.2.2.2.2 (by decide) (by decide) (by decide)).2⟩

end EngineModel
